import Mathlib

/-!
# testgo: cache-aside fetch/aggregate pipeline (`src/main.go`)

A shallow embedding of `main.go`.

* The upstream provider, the JSON decoder and the Redis connection are the
  environment: they are passed in as oracles (`Upstream`, `RedisClient`) and
  every theorem quantifies over them.
* `fetchAllUsers` is concurrent.  It is embedded as an interleaving
  semantics: a `State` holds the program counter of the calling goroutine, of
  every `fetchUsersAsync` goroutine and of the anonymous goroutine that waits
  and closes the channel, together with the `sync.WaitGroup` counter and the
  buffered channel.  `step` executes one atomic action of one goroutine, and
  `run` drives the system with a scheduler that picks, at every instant, one
  of the goroutines that can move.
* Go `int` values are embedded as `Nat`: the only arithmetic is
  `TOTAL_RECORDS / PER_PAGE` and the loop counter `i + 1 ≤ pages`, neither of
  which can overflow for positive operands.
-/

namespace Testgo

/-! ## Constants (main.go, lines 16-22) -/

def API_URL : String := "https://randomuser.me/api/"
def TOTAL_RECORDS : Nat := 15000
def PER_PAGE : Nat := 3750
def CONCURRENCY : Nat := 4
def REDIS_USERS_KEY : String := "users"

/-- The three numeric constants of the program, as a record, so that
properties can be stated for every value of them.  `perPage` is a divisor in
`fetchAllUsers`; Go rejects a constant division by zero when compiling, so
`perPage = 0` is not a program. -/
structure Config where
  totalRecords : Nat
  perPage : Nat
  concurrency : Nat
  deriving DecidableEq, Repr

/-- The configuration that main.go is compiled with. -/
def programConfig : Config := ⟨TOTAL_RECORDS, PER_PAGE, CONCURRENCY⟩

/-! ## Data model (main.go, lines 24-50) -/

structure RawName where
  First : String
  Last : String
  deriving DecidableEq, Repr

structure RawLocation where
  City : String
  Country : String
  deriving DecidableEq, Repr

structure RawLogin where
  Uuid : String
  deriving DecidableEq, Repr

/-- One element of `UsersResults.Results`. -/
structure RawUser where
  Gender : String
  Name : RawName
  Email : String
  Location : RawLocation
  Login : RawLogin
  deriving DecidableEq, Repr

structure UsersResults where
  Results : List RawUser
  deriving DecidableEq, Repr

structure User where
  Gender : String
  FirstName : String
  LastName : String
  Email : String
  City : String
  Country : String
  Uuid : String
  deriving DecidableEq, Repr

/-- Go error values.  `redisNil` is the sentinel `redis.Nil`; every other
error is `other`. -/
inductive GoError where
  | redisNil
  | other (msg : String)
  deriving DecidableEq, Repr

/-- A Go slice: `nil` (the zero value of `var results []User`) is distinct
from a non-nil slice, which `json.Marshal` tells apart. -/
inductive GoSlice (α : Type) where
  | nil
  | ofList (elems : List α)
  deriving DecidableEq, Repr

namespace GoSlice

def toList {α : Type} : GoSlice α → List α
  | nil => []
  | ofList l => l

/-- Go `len(s)`. -/
def len {α : Type} (s : GoSlice α) : Nat := s.toList.length

/-- Go `append(s, x)`: the result is never nil. -/
def append {α : Type} (s : GoSlice α) (x : α) : GoSlice α :=
  ofList (s.toList ++ [x])

end GoSlice

/-! ## fetchUser (main.go, lines 52-88) -/

/-- What `http.Get` followed by `io.ReadAll(resp.Body)` can produce. -/
inductive HttpResult where
  | failed (err : String)
  | response (statusCode : Nat) (body : Except String String)

/-- The upstream provider and the JSON decoder of `UsersResults`. -/
structure Upstream where
  get : String → HttpResult
  decode : String → Except String UsersResults

/-- The URL built by `fmt.Sprintf` in `fetchUser`. -/
def urlToFetch (count page : Nat) : String :=
  API_URL ++ "?results=" ++ toString count ++ "&page=" ++ toString page
    ++ "&inc=gender,name,location,login&noinfo"

def fetchUser (up : Upstream) (count page : Nat) : Except GoError UsersResults :=
  match up.get (urlToFetch count page) with
  | .failed err => .error (.other err)
  | .response statusCode body =>
    if statusCode ≠ 200 then
      .error (.other ("unexpected status code: " ++ toString statusCode))
    else
      match body with
      | .error err => .error (.other err)
      | .ok bytes =>
        match up.decode bytes with
        | .error err => .error (.other err)
        | .ok users => .ok users

/-! ## fetchAllUsers (main.go, lines 90-140) -/

/-- The `User` literal built in the inner loop of `fetchAllUsers`
(lines 126-134). -/
def normalize (user : RawUser) : User :=
  { Gender := user.Gender
    FirstName := user.Name.First
    LastName := user.Name.Last
    Email := user.Email
    City := user.Location.City
    Country := user.Location.Country
    Uuid := user.Login.Uuid }

/-- The inner loop `for _, user := range usersResults.Results` (lines 123-136). -/
def appendPage (results : GoSlice User) (usersResults : UsersResults) : GoSlice User :=
  usersResults.Results.foldl (fun acc user => acc.append (normalize user)) results

/-- Program counter of one `fetchUsersAsync` goroutine. -/
inductive WorkerPc where
  /-- Line 93: about to call `fetchUser`. -/
  | start
  /-- Line 101: `fetchUser` succeeded, about to execute `ch <- users`. -/
  | sending (users : UsersResults)
  /-- Returning: the deferred `wg.Done()` is still to run. -/
  | exiting
  /-- The goroutine has ended. -/
  | done
  deriving DecidableEq, Repr

structure Worker where
  count : Nat
  page : Nat
  pc : WorkerPc
  deriving DecidableEq, Repr

/-- Program counter of the goroutine that called `fetchAllUsers`. -/
inductive MainPc where
  /-- Line 109-110: loop test with counter `i`, then `wg.Add(1)`. -/
  | launchAdd (i : Nat)
  /-- Line 112: `go fetchUsersAsync(&wg, ch, PER_PAGE, i + 1)`, then `i++`. -/
  | launchGo (i : Nat)
  /-- Line 115: `go func() ...`. -/
  | spawnCloser
  /-- Line 122: `for usersResults := range ch`. -/
  | receiving
  /-- Line 139: `return results`. -/
  | returned
  deriving DecidableEq, Repr

/-- Program counter of the anonymous goroutine of lines 115-118. -/
inductive CloserPc where
  | absent
  /-- Line 116: `wg.Wait()`. -/
  | waiting
  /-- Line 117: `close(ch)`. -/
  | closing
  | finished
  deriving DecidableEq, Repr

structure State where
  main : MainPc
  results : GoSlice User
  /-- Counter of the `sync.WaitGroup`. -/
  wg : Nat
  workers : List Worker
  closer : CloserPc
  /-- Buffer of the channel `ch`, oldest element first. -/
  buf : List UsersResults
  closed : Bool
  /-- Log of the calls `fetchUser(count, page)` made so far. -/
  requests : List (Nat × Nat)
  /-- Log of the values sent on `ch` so far, in channel order. -/
  sent : List UsersResults
  deriving DecidableEq, Repr

/-- State on entry of `fetchAllUsers` (lines 105-107). -/
def initState : State :=
  { main := .launchAdd 0, results := .nil, wg := 0, workers := [], closer := .absent,
    buf := [], closed := false, requests := [], sent := [] }

inductive Goroutine where
  | main
  | closer
  | worker (k : Nat)
  deriving DecidableEq, Repr

inductive StepResult where
  /-- The goroutine cannot move (it waits, or it has ended). -/
  | blocked
  /-- The action is a run-time panic. -/
  | panic (msg : String)
  | next (s : State)
  deriving DecidableEq, Repr

def StepResult.isBlocked : StepResult → Bool
  | .blocked => true
  | _ => false

/-- One action of the calling goroutine. -/
def stepMain (cfg : Config) (s : State) : StepResult :=
  match s.main with
  | .launchAdd i =>
    if i < cfg.totalRecords / cfg.perPage then
      .next { s with wg := s.wg + 1, main := .launchGo i }
    else
      .next { s with main := .spawnCloser }
  | .launchGo i =>
    .next { s with workers := s.workers ++ [⟨cfg.perPage, i + 1, .start⟩],
                   main := .launchAdd (i + 1) }
  | .spawnCloser => .next { s with closer := .waiting, main := .receiving }
  | .receiving =>
    match s.buf with
    | usersResults :: rest =>
      .next { s with buf := rest, results := appendPage s.results usersResults }
    | [] => if s.closed then .next { s with main := .returned } else .blocked
  | .returned => .blocked

/-- One action of the goroutine `wg.Wait(); close(ch)`. -/
def stepCloser (s : State) : StepResult :=
  match s.closer with
  | .absent => .blocked
  | .waiting => if s.wg = 0 then .next { s with closer := .closing } else .blocked
  | .closing =>
    if s.closed then .panic "close of closed channel"
    else .next { s with closed := true, closer := .finished }
  | .finished => .blocked

/-- One action of the `k`-th `fetchUsersAsync` goroutine. -/
def stepWorker (cfg : Config) (up : Upstream) (k : Nat) (s : State) : StepResult :=
  match s.workers[k]? with
  | none => .blocked
  | some w =>
    match w.pc with
    | .start =>
      match fetchUser up w.count w.page with
      | .error _ =>
        .next { s with workers := s.workers.set k { w with pc := .exiting },
                       requests := s.requests ++ [(w.count, w.page)] }
      | .ok users =>
        .next { s with workers := s.workers.set k { w with pc := .sending users },
                       requests := s.requests ++ [(w.count, w.page)] }
    | .sending users =>
      if s.closed then .panic "send on closed channel"
      else if s.buf.length < cfg.concurrency then
        .next { s with workers := s.workers.set k { w with pc := .exiting },
                       buf := s.buf ++ [users], sent := s.sent ++ [users] }
      else .blocked
    | .exiting =>
      if s.wg = 0 then .panic "sync: negative WaitGroup counter"
      else .next { s with workers := s.workers.set k { w with pc := .done }, wg := s.wg - 1 }
    | .done => .blocked

def step (cfg : Config) (up : Upstream) : Goroutine → State → StepResult
  | .main, s => stepMain cfg s
  | .closer, s => stepCloser s
  | .worker k, s => stepWorker cfg up k s

/-- Every goroutine that exists in state `s`. -/
def goroutines (s : State) : List Goroutine :=
  .main :: .closer :: (List.range s.workers.length).map .worker

/-- The goroutines that can move in state `s`. -/
def enabled (cfg : Config) (up : Upstream) (s : State) : List Goroutine :=
  (goroutines s).filter (fun g => !(step cfg up g s).isBlocked)

inductive RunFailure where
  | outOfFuel
  | deadlock
  | panic (msg : String)
  deriving DecidableEq, Repr

/-- Run the goroutines until the caller returns.  At instant `t` the scheduler
`sched` picks the goroutine number `sched t` (modulo their number) among those
that can move. -/
def run (cfg : Config) (up : Upstream) (sched : Nat → Nat) :
    Nat → Nat → State → Except RunFailure State
  | 0, _, _ => .error .outOfFuel
  | fuel + 1, t, s =>
    if s.main = .returned then .ok s
    else
      match enabled cfg up s with
      | [] => .error .deadlock
      | g :: gs =>
        match step cfg up ((g :: gs).getD (sched t % (g :: gs).length) g) s with
        | .next s' => run cfg up sched fuel (t + 1) s'
        | .panic msg => .error (.panic msg)
        | .blocked => .error .deadlock

/-- Number of actions that suffices for every run from `initState`. -/
def runFuel (cfg : Config) : Nat := 6 * (cfg.totalRecords / cfg.perPage) + 6

/-- The final state of a call of `fetchAllUsers` under scheduler `sched`. -/
def execute (cfg : Config) (up : Upstream) (sched : Nat → Nat) : Except RunFailure State :=
  run cfg up sched (runFuel cfg) 0 initState

/-- The slice returned by `fetchAllUsers` under scheduler `sched`. -/
def fetchAllUsers (cfg : Config) (up : Upstream) (sched : Nat → Nat) :
    Except RunFailure (GoSlice User) :=
  (execute cfg up sched).map (fun s => s.results)

/-! ## Invariants of the interleaving semantics -/

/-- The users contributed by one page. -/
def pageUsers (usersResults : UsersResults) : List User :=
  usersResults.Results.map normalize

/-- The arguments `(count, page)` a worker was launched with. -/
def Worker.task (w : Worker) : Nat × Nat := (w.count, w.page)

/-- Number of pages computed at line 107. -/
def pageCount (cfg : Config) : Nat := cfg.totalRecords / cfg.perPage

/-- The arguments of the tasks launched by the loop of lines 109-113. -/
def plannedTasks (cfg : Config) (n : Nat) : List (Nat × Nat) :=
  (List.range n).map (fun i => (cfg.perPage, i + 1))

/-- The page obtained by `fetchUser`, when it returns a nil error. -/
def fetched (up : Upstream) (task : Nat × Nat) : Option UsersResults :=
  match fetchUser up task.1 task.2 with
  | .ok users => some users
  | .error _ => none

/-- The pages whose fetch succeeds, by increasing page index. -/
def successfulPages (cfg : Config) (up : Upstream) : List UsersResults :=
  (plannedTasks cfg (pageCount cfg)).filterMap (fetched up)

def WorkerPc.isDone : WorkerPc → Bool
  | .done => true
  | _ => false

def WorkerPc.isStart : WorkerPc → Bool
  | .start => true
  | _ => false

/-- Whether the worker is past its send statement. -/
def WorkerPc.isPast : WorkerPc → Bool
  | .exiting => true
  | .done => true
  | _ => false

/-- The page a worker has put on the channel, if any. -/
def delivered (up : Upstream) (w : Worker) : Option UsersResults :=
  if w.pc.isPast then fetched up w.task else none

/-- The number of `wg.Add(1)` not yet matched by the start of a goroutine. -/
def MainPc.pending : MainPc → Nat
  | .launchGo _ => 1
  | _ => 0

/-- How many workers exist at a given point of the caller. -/
def MainPc.launchedOk (pages n : Nat) : MainPc → Prop
  | .launchAdd i => n = i ∧ i ≤ pages
  | .launchGo i => n = i ∧ i < pages
  | _ => n = pages

def MainPc.beforeCloser : MainPc → Bool
  | .launchAdd _ => true
  | .launchGo _ => true
  | .spawnCloser => true
  | _ => false

def CloserPc.pastWait : CloserPc → Bool
  | .closing => true
  | .finished => true
  | _ => false

def MainPc.weight (pages : Nat) : MainPc → Nat
  | .launchAdd i => 6 * (pages - i) + 5
  | .launchGo i => 6 * (pages - i) + 4
  | .spawnCloser => 4
  | .receiving => 1
  | .returned => 0

def WorkerPc.weight : WorkerPc → Nat
  | .start => 4
  | .sending _ => 3
  | .exiting => 1
  | .done => 0

def CloserPc.weight : CloserPc → Nat
  | .absent => 0
  | .waiting => 2
  | .closing => 1
  | .finished => 0

/-- A bound on the number of actions that remain possible from `s`. -/
def measure (cfg : Config) (s : State) : Nat :=
  s.main.weight (pageCount cfg) + (s.workers.map (fun w => w.pc.weight)).sum
    + s.closer.weight + s.buf.length

structure Inv (cfg : Config) (up : Upstream) (s : State) : Prop where
  wgCount : s.wg = s.workers.countP (fun w => !w.pc.isDone) + s.main.pending
  launched : s.main.launchedOk (pageCount cfg) s.workers.length
  tasks : s.workers.map Worker.task = plannedTasks cfg s.workers.length
  closerAbsent : s.closer = .absent ↔ s.main.beforeCloser = true
  closedIff : s.closed = true ↔ s.closer = .finished
  allDone : s.closer.pastWait = true → ∀ w ∈ s.workers, w.pc = .done
  returnedOk : s.main = .returned → s.closed = true ∧ s.buf = []
  sendingOk : ∀ w ∈ s.workers, ∀ u, w.pc = .sending u → fetched up w.task = some u
  sentPerm : List.Perm s.sent (s.workers.filterMap (delivered up))
  requestsPerm :
    List.Perm s.requests ((s.workers.filter (fun w => !w.pc.isStart)).map Worker.task)
  resultsEq : s.results.toList ++ s.buf.flatMap pageUsers = s.sent.flatMap pageUsers
  resultsNil : s.results ≠ .ofList []

/-- States reachable from the entry of `fetchAllUsers` by actions of any
goroutines, in any order. -/
inductive Reachable (cfg : Config) (up : Upstream) : State → Prop where
  | init : Reachable cfg up initState
  | step {s s' : State} (g : Goroutine) :
      Reachable cfg up s → step cfg up g s = .next s' → Reachable cfg up s'

/-- What is known of a state in which the caller has returned. -/
structure Final (cfg : Config) (up : Upstream) (s : State) : Prop where
  closed : s.closed = true
  drained : s.buf = []
  closerFinished : s.closer = .finished
  allDone : ∀ w ∈ s.workers, w.pc = .done
  wgZero : s.wg = 0
  tasks : s.workers.map Worker.task = plannedTasks cfg (pageCount cfg)
  requests : List.Perm s.requests (plannedTasks cfg (pageCount cfg))
  sent : List.Perm s.sent (successfulPages cfg up)
  results : s.results.toList = s.sent.flatMap pageUsers
  resultsNil : s.results ≠ .ofList []

/-! ## encodeUsers (main.go, lines 142-152) -/

/-- The JSON member names and values of a `User`, from the struct tags of
lines 42-50, in declaration order. -/
def userFields (u : User) : List (String × String) :=
  [("gender", u.Gender), ("first_name", u.FirstName), ("last_name", u.LastName),
   ("email", u.Email), ("city", u.City), ("country", u.Country), ("uuid", u.Uuid)]

/-- JSON text of an object, given its members; `quote` is the encoding of a
Go string as a JSON string literal by `encoding/json`. -/
def jsonObject (quote : String → String) (fields : List (String × String)) : String :=
  "\x7b" ++ ",".intercalate (fields.map (fun kv => "\x22" ++ kv.1 ++ "\x22:" ++ quote kv.2))
    ++ "\x7d"

/-- JSON text of an array of users. -/
def jsonArray (quote : String → String) (users : List User) : String :=
  "[" ++ ",".intercalate (users.map (fun u => jsonObject quote (userFields u))) ++ "]"

/-- The function `json.Marshal` of `encoding/json` on a `[]User`: a nil slice
is encoded as `null`, any other slice as an array; no `User` makes it fail. -/
def jsonMarshal (quote : String → String) : GoSlice User → Except GoError String
  | .nil => .ok "null"
  | .ofList users => .ok (jsonArray quote users)

def encodeUsers (quote : String → String) (users : GoSlice User) : String :=
  match jsonMarshal quote users with
  | .error _ => ""
  | .ok encodedUsers => encodedUsers

/-! ## Redis (main.go, lines 154-177) -/

structure RedisEntry where
  value : String
  /-- Time to live; zero is no expiration. -/
  expiration : Nat
  deriving DecidableEq, Repr

/-- Contents of the Redis server: a key/value store. -/
abbrev RedisData := String → Option RedisEntry

/-- The connection `rdb`: each command may fail before it reaches the store. -/
structure RedisClient where
  getErr : Option GoError
  setErr : Option GoError

/-- The call `rdb.Get(ctx, key).Result()`: an absent key is the error
`redis.Nil`. -/
def redisGet (rdb : RedisClient) (data : RedisData) (key : String) : String × Option GoError :=
  match rdb.getErr with
  | some err => ("", some err)
  | none =>
    match data key with
    | none => ("", some .redisNil)
    | some entry => (entry.value, none)

/-- The call `rdb.Set(ctx, key, val, expiration).Err()`. -/
def redisSet (rdb : RedisClient) (data : RedisData) (key val : String) (expiration : Nat) :
    Option GoError × RedisData :=
  match rdb.setErr with
  | some err => (some err, data)
  | none => (none, fun k => if k = key then some ⟨val, expiration⟩ else data k)

def fetchFromRedis (rdb : RedisClient) (data : RedisData) : String × Option GoError :=
  match redisGet rdb data REDIS_USERS_KEY with
  | (_, some err) => ("", some err)
  | (val, none) => (val, none)

def storeInRedis (rdb : RedisClient) (data : RedisData) (val : String) :
    Option GoError × RedisData :=
  redisSet rdb data REDIS_USERS_KEY val 0

/-! ## getUsers (main.go, lines 179-207) -/

/-- What the handler writes: `c.String` or `c.IndentedJSON` of a `gin.H`. -/
inductive Body where
  | text (s : String)
  | indentedJSON (obj : List (String × String))
  deriving DecidableEq, Repr

structure Response where
  status : Nat
  body : Body
  deriving DecidableEq, Repr

/-- The calls made by `getUsers`, for its trace. -/
inductive Call where
  | fetchFromRedis
  | fetchAllUsers
  | storeInRedis (val : String)
  deriving DecidableEq, Repr

/-- The environment of one request. -/
structure Env where
  up : Upstream
  sched : Nat → Nat
  rdb : RedisClient
  quote : String → String

/-- The outcome of one request: the response, the contents of Redis
afterwards, the calls made in order, and the page fetches issued. -/
structure Handled where
  response : Response
  data : RedisData
  calls : List Call
  requests : List (Nat × Nat)

def getUsers (cfg : Config) (env : Env) (data : RedisData) : Except RunFailure Handled :=
  match fetchFromRedis env.rdb data with
  | (_, some .redisNil) =>
    match execute cfg env.up env.sched with
    | .error failure => .error failure
    | .ok final =>
      let output := encodeUsers env.quote final.results
      match storeInRedis env.rdb data output with
      | (some _, data') =>
        .ok { response := ⟨500, .indentedJSON [("message", "Error storing users in redis")]⟩
              data := data'
              calls := [.fetchFromRedis, .fetchAllUsers, .storeInRedis output]
              requests := final.requests }
      | (none, data') =>
        .ok { response := ⟨200, .text output⟩
              data := data'
              calls := [.fetchFromRedis, .fetchAllUsers, .storeInRedis output]
              requests := final.requests }
  | (_, some _) =>
    .ok { response := ⟨500, .indentedJSON [("message", "Error fetching users from redis")]⟩
          data := data
          calls := [.fetchFromRedis]
          requests := [] }
  | (output, none) =>
    .ok { response := ⟨200, .text output⟩
          data := data
          calls := [.fetchFromRedis]
          requests := [] }

/-! ## Concrete inputs -/

def sampleRaw (n : Nat) : RawUser :=
  { Gender := "female", Name := ⟨"first" ++ toString n, "last"⟩, Email := "",
    Location := ⟨"city", "country"⟩, Login := ⟨"uuid" ++ toString n⟩ }

/-- A page of four records. -/
def samplePage : UsersResults := ⟨[sampleRaw 1, sampleRaw 2, sampleRaw 3, sampleRaw 4]⟩

/-- An upstream that answers every request with status 200 and `samplePage`. -/
def upFour : Upstream := ⟨fun _ => .response 200 (.ok "page"), fun _ => .ok samplePage⟩

/-- An upstream that answers every request with status 200 and no record. -/
def upEmpty : Upstream :=
  ⟨fun _ => .response 200 (.ok "\x7b\x22results\x22:[]\x7d"), fun _ => .ok ⟨[]⟩⟩

/-- An upstream that cannot be reached. -/
def upDown : Upstream := ⟨fun _ => .failed "connection refused", fun _ => .ok samplePage⟩

/-- An upstream that answers status 503 for page 1 of size 4 and `samplePage`
for every other request. -/
def upOneBad : Upstream :=
  ⟨fun url => if url = urlToFetch 4 1 then .response 503 (.ok "") else .response 200 (.ok "page"),
   fun _ => .ok samplePage⟩

/-- Two pages of four records. -/
def smallConfig : Config := ⟨8, 4, 4⟩

/-- A connection on which no command fails. -/
def healthy : RedisClient := ⟨none, none⟩

def emptyData : RedisData := fun _ => none

/-- A simple string encoder: the text between double quotes. -/
def plainQuote (s : String) : String := "\x22" ++ s ++ "\x22"

/-- A scheduler that always picks the first goroutine that can move. -/
def firstReady : Nat → Nat := fun _ => 0

/-- A connection on which every write fails. -/
def readOnly : RedisClient := ⟨none, some (.other "READONLY")⟩

def Call.isStore : Call → Bool
  | .storeInRedis _ => true
  | _ => false

theorem appendPage_toList (r : GoSlice User) (p : UsersResults) :
    (appendPage r p).toList = r.toList ++ pageUsers p := by
  obtain ⟨l⟩ := p
  unfold appendPage pageUsers
  simp only
  induction l generalizing r with
  | nil => simp
  | cons x xs ih =>
    rw [List.foldl_cons, ih]
    simp [GoSlice.append, GoSlice.toList]

theorem appendPage_ne_empty (r : GoSlice User) (p : UsersResults)
    (h : r ≠ .ofList []) : appendPage r p ≠ .ofList [] := by
  obtain ⟨l⟩ := p
  unfold appendPage
  simp only
  induction l generalizing r with
  | nil => simpa using h
  | cons x xs ih =>
    rw [List.foldl_cons]
    apply ih
    simp [GoSlice.append]

theorem set_split {α : Type} (l : List α) (k : Nat) (w w' : α) (h : l[k]? = some w) :
    ∃ l₁ l₂, l = l₁ ++ w :: l₂ ∧ l.set k w' = l₁ ++ w' :: l₂ := by
  induction l generalizing k with
  | nil => simp at h
  | cons x xs ih =>
    cases k with
    | zero =>
      simp at h
      subst h
      exact ⟨[], xs, by simp, by simp⟩
    | succ k =>
      simp at h
      obtain ⟨l₁, l₂, h₁, h₂⟩ := ih k h
      exact ⟨x :: l₁, l₂, by simp [h₁], by simp [h₂]⟩

theorem mem_of_lookup {α : Type} (l : List α) (k : Nat) (w : α) (h : l[k]? = some w) :
    w ∈ l := by
  obtain ⟨l₁, l₂, hs, _⟩ := set_split l k w w h
  rw [hs]
  simp

theorem inv_init (cfg : Config) (up : Upstream) : Inv cfg up initState := by
  constructor <;> simp [initState, MainPc.pending, MainPc.launchedOk, plannedTasks,
    MainPc.beforeCloser, CloserPc.pastWait, GoSlice.toList]

theorem inv_stepMain (cfg : Config) (up : Upstream) (s s' : State)
    (hi : Inv cfg up s) (h : stepMain cfg s = .next s') :
    Inv cfg up s' ∧ measure cfg s' < measure cfg s := by
  obtain ⟨h1, h2, h3, h4, h5, h6, h7, h8, h9, h10, h11, h12⟩ := hi
  unfold stepMain at h
  cases hm : s.main with
  | launchAdd i =>
    simp only [hm] at h
    simp only [hm, MainPc.pending, MainPc.launchedOk, MainPc.beforeCloser] at h1 h2 h4
    split at h
    · rename_i hlt
      injection h with h
      subst h
      refine ⟨⟨?_, ?_, ?_, ?_, ?_, ?_, ?_, ?_, ?_, ?_, ?_, ?_⟩, ?_⟩ <;>
        simp_all [MainPc.pending, MainPc.launchedOk, MainPc.beforeCloser, measure,
          MainPc.weight, pageCount]
    · rename_i hlt
      injection h with h
      subst h
      refine ⟨⟨?_, ?_, ?_, ?_, ?_, ?_, ?_, ?_, ?_, ?_, ?_, ?_⟩, ?_⟩ <;>
        simp_all [MainPc.pending, MainPc.launchedOk, MainPc.beforeCloser, measure,
          MainPc.weight, pageCount]
      omega
  | launchGo i =>
    simp only [hm] at h
    simp only [hm, MainPc.pending, MainPc.launchedOk, MainPc.beforeCloser] at h1 h2 h4
    injection h with h
    subst h
    have hc : s.closer.pastWait = false := by rw [h4.2 trivial]; rfl
    refine ⟨⟨?_, ?_, ?_, ?_, ?_, ?_, ?_, ?_, ?_, ?_, ?_, ?_⟩, ?_⟩
    · simp [h1, MainPc.pending, WorkerPc.isDone, List.countP_append]
    · simp only [MainPc.launchedOk, List.length_append, List.length_singleton]
      omega
    · simp only [List.map_append, h3, plannedTasks, List.length_append, List.length_singleton,
        List.range_succ, List.map_cons, List.map_nil, Worker.task, h2.1]
    · simpa [MainPc.beforeCloser] using h4
    · exact h5
    · simp [hc]
    · simp
    · intro w hw u hu
      rcases List.mem_append.1 hw with hw | hw
      · exact h8 w hw u hu
      · simp at hw
        subst hw
        simp at hu
    · simpa [List.filterMap_append, delivered, WorkerPc.isPast] using h9
    · simpa [List.filter_append, WorkerPc.isStart] using h10
    · exact h11
    · exact h12
    · simp only [measure, MainPc.weight, hm, List.map_append, List.sum_append, List.map_cons,
        List.map_nil, List.sum_cons, List.sum_nil, WorkerPc.weight]
      omega
  | spawnCloser =>
    simp only [hm] at h
    simp only [hm, MainPc.pending, MainPc.launchedOk, MainPc.beforeCloser] at h1 h2 h4
    injection h with h
    subst h
    have hc : s.closer = .absent := h4.2 trivial
    refine ⟨⟨?_, ?_, ?_, ?_, ?_, ?_, ?_, ?_, ?_, ?_, ?_, ?_⟩, ?_⟩
    · simpa [MainPc.pending] using h1
    · simpa [MainPc.launchedOk] using h2
    · exact h3
    · simp [MainPc.beforeCloser]
    · have : s.closed = false := by
        cases hcl : s.closed with
        | false => rfl
        | true => rw [h5.1 hcl] at hc; cases hc
      simp [this]
    · simp [CloserPc.pastWait]
    · simp
    · exact h8
    · exact h9
    · exact h10
    · exact h11
    · exact h12
    · simp only [measure, MainPc.weight, hm, hc, CloserPc.weight]
      omega
  | receiving =>
    simp only [hm] at h
    simp only [hm, MainPc.pending, MainPc.launchedOk, MainPc.beforeCloser] at h1 h2 h4
    cases hb : s.buf with
    | nil =>
      simp only [hb] at h
      split at h
      · rename_i hcl
        injection h with h
        subst h
        refine ⟨⟨?_, ?_, ?_, ?_, ?_, ?_, ?_, ?_, ?_, ?_, ?_, ?_⟩, ?_⟩
        · simpa [MainPc.pending] using h1
        · simpa [MainPc.launchedOk] using h2
        · exact h3
        · simpa [MainPc.beforeCloser] using h4
        · exact h5
        · exact h6
        · intro _; exact ⟨hcl, rfl⟩
        · exact h8
        · exact h9
        · exact h10
        · simpa [hb] using h11
        · exact h12
        · simp only [measure, MainPc.weight, hm, List.length_nil]
          omega
      · cases h
    | cons p rest =>
      simp only [hb] at h
      injection h with h
      subst h
      refine ⟨⟨?_, ?_, ?_, ?_, ?_, ?_, ?_, ?_, ?_, ?_, ?_, ?_⟩, ?_⟩
      · simpa [hm, MainPc.pending] using h1
      · simpa [hm, MainPc.launchedOk] using h2
      · exact h3
      · simpa [hm, MainPc.beforeCloser] using h4
      · exact h5
      · exact h6
      · intro hr
        simp [hm] at hr
      · exact h8
      · exact h9
      · exact h10
      · simp only [appendPage_toList]
        rw [← h11, hb]
        simp
      · exact appendPage_ne_empty _ _ h12
      · simp only [measure, hm, hb, List.length_cons]
        omega
  | returned => simp [hm] at h

theorem isDone_eq_true (pc : WorkerPc) : pc.isDone = true ↔ pc = .done := by
  cases pc <;> simp [WorkerPc.isDone]

theorem inv_stepCloser (cfg : Config) (up : Upstream) (s s' : State)
    (hi : Inv cfg up s) (h : stepCloser s = .next s') :
    Inv cfg up s' ∧ measure cfg s' < measure cfg s := by
  obtain ⟨h1, h2, h3, h4, h5, h6, h7, h8, h9, h10, h11, h12⟩ := hi
  unfold stepCloser at h
  cases hc : s.closer with
  | absent => simp [hc] at h
  | finished => simp [hc] at h
  | waiting =>
    simp only [hc] at h
    split at h
    · rename_i hwg
      injection h with h
      subst h
      have hmain : s.main.beforeCloser = false := by
        cases hb : s.main.beforeCloser with
        | false => rfl
        | true => rw [h4.2 hb] at hc; cases hc
      have hcl : s.closed = false := by
        cases hcl : s.closed with
        | false => rfl
        | true => rw [h5.1 hcl] at hc; cases hc
      refine ⟨⟨h1, h2, h3, ?_, ?_, ?_, ?_, h8, h9, h10, h11, h12⟩, ?_⟩
      · simp [hmain]
      · simp [hcl]
      · intro _ w hw
        have h0 : s.workers.countP (fun w => !w.pc.isDone) = 0 := by omega
        have := (List.countP_eq_zero.1 h0) w hw
        simpa [isDone_eq_true] using this
      · intro hr
        have := h7 hr
        simp [hcl] at this
      · simp only [measure, hc, CloserPc.weight]
        omega
    · cases h
  | closing =>
    simp only [hc] at h
    split at h
    · cases h
    · injection h with h
      subst h
      have hmain : s.main.beforeCloser = false := by
        cases hb : s.main.beforeCloser with
        | false => rfl
        | true => rw [h4.2 hb] at hc; cases hc
      refine ⟨⟨h1, h2, h3, ?_, ?_, ?_, ?_, h8, h9, h10, h11, h12⟩, ?_⟩
      · simp [hmain]
      · simp
      · intro _
        exact h6 (by rw [hc]; rfl)
      · intro hr
        exact ⟨rfl, (h7 hr).2⟩
      · simp only [measure, hc, CloserPc.weight]
        omega

theorem perm_snoc_middle {α : Type} (l a b : List α) (x : α) (h : List.Perm l (a ++ b)) :
    List.Perm (l ++ [x]) (a ++ x :: b) := by
  have h1 : List.Perm (l ++ [x]) (x :: l) := List.perm_append_singleton x l
  have h2 : List.Perm (x :: l) (x :: (a ++ b)) := List.Perm.cons x h
  exact (h1.trans h2).trans List.perm_middle.symm

theorem inv_stepWorker (cfg : Config) (up : Upstream) (k : Nat) (s s' : State)
    (hi : Inv cfg up s) (h : stepWorker cfg up k s = .next s') :
    Inv cfg up s' ∧ measure cfg s' < measure cfg s := by
  obtain ⟨h1, h2, h3, h4, h5, h6, h7, h8, h9, h10, h11, h12⟩ := hi
  unfold stepWorker at h
  cases hk : s.workers[k]? with
  | none => simp [hk] at h
  | some w =>
    simp only [hk] at h
    obtain ⟨wc, wp, wpc⟩ := w
    cases wpc with
    | done => simp at h
    | start =>
      simp only at h
      have hnp : s.closer.pastWait = false := by
        cases hp : s.closer.pastWait with
        | false => rfl
        | true =>
          have := h6 hp _ (mem_of_lookup _ _ _ hk)
          cases this
      cases hf : fetchUser up wc wp with
      | error e =>
        simp only [hf] at h
        injection h with h
        subst h
        obtain ⟨l₁, l₂, hs, hset⟩ := set_split s.workers k ⟨wc, wp, .start⟩
          ⟨wc, wp, .exiting⟩ hk
        simp only [hset]
        rw [hs] at h1 h2 h3 h8 h9 h10
        have hfe : fetched up (wc, wp) = none := by simp [fetched, hf]
        refine ⟨⟨?_, ?_, ?_, h4, h5, ?_, h7, ?_, ?_, ?_, h11, h12⟩, ?_⟩
        · simpa [WorkerPc.isDone] using h1
        · simpa using h2
        · simpa [Worker.task] using h3
        · simp [hnp]
        · intro w hw u hu
          apply h8 w _ u hu
          simp only [List.mem_append, List.mem_cons] at hw ⊢
          rcases hw with hw | hw | hw
          · exact Or.inl hw
          · subst hw; cases hu
          · exact Or.inr (Or.inr hw)
        · simpa [List.filterMap_append, List.filterMap_cons, delivered, WorkerPc.isPast,
            Worker.task, hfe] using h9
        · simp only [List.filter_append, List.filter_cons, WorkerPc.isStart, Bool.not_true,
            Bool.not_false, List.map_append, List.map_cons, Worker.task] at h10 ⊢
          exact perm_snoc_middle _ _ _ _ (by simpa using h10)
        · simp only [measure, hs, List.map_append, List.sum_append, List.map_cons,
            List.sum_cons, WorkerPc.weight]
          omega
      | ok users =>
        simp only [hf] at h
        injection h with h
        subst h
        obtain ⟨l₁, l₂, hs, hset⟩ := set_split s.workers k ⟨wc, wp, .start⟩
          ⟨wc, wp, .sending users⟩ hk
        simp only [hset]
        rw [hs] at h1 h2 h3 h8 h9 h10
        have hfe : fetched up (wc, wp) = some users := by simp [fetched, hf]
        refine ⟨⟨?_, ?_, ?_, h4, h5, ?_, h7, ?_, ?_, ?_, h11, h12⟩, ?_⟩
        · simpa [WorkerPc.isDone] using h1
        · simpa using h2
        · simpa [Worker.task] using h3
        · simp [hnp]
        · intro w hw u hu
          simp only [List.mem_append, List.mem_cons] at hw
          rcases hw with hw | hw | hw
          · exact h8 w (by simp [hw]) u hu
          · subst hw
            simp only [WorkerPc.sending.injEq] at hu
            subst hu
            exact hfe
          · exact h8 w (by simp [hw]) u hu
        · simpa [List.filterMap_append, List.filterMap_cons, delivered, WorkerPc.isPast,
            Worker.task] using h9
        · simp only [List.filter_append, List.filter_cons, WorkerPc.isStart, Bool.not_true,
            Bool.not_false, List.map_append, List.map_cons, Worker.task] at h10 ⊢
          exact perm_snoc_middle _ _ _ _ (by simpa using h10)
        · simp only [measure, hs, List.map_append, List.sum_append, List.map_cons,
            List.sum_cons, WorkerPc.weight]
          omega
    | sending u =>
      simp only at h
      have hnp : s.closer.pastWait = false := by
        cases hp : s.closer.pastWait with
        | false => rfl
        | true =>
          have := h6 hp _ (mem_of_lookup _ _ _ hk)
          cases this
      split at h
      · cases h
      · split at h
        · injection h with h
          subst h
          obtain ⟨l₁, l₂, hs, hset⟩ := set_split s.workers k ⟨wc, wp, .sending u⟩
            ⟨wc, wp, .exiting⟩ hk
          simp only [hset]
          rw [hs] at h1 h2 h3 h8 h9 h10
          have hfe : fetched up (wc, wp) = some u := h8 ⟨wc, wp, .sending u⟩ (by simp) u rfl
          refine ⟨⟨?_, ?_, ?_, h4, h5, ?_, ?_, ?_, ?_, ?_, ?_, h12⟩, ?_⟩
          · simpa [WorkerPc.isDone] using h1
          · simpa using h2
          · simpa [Worker.task] using h3
          · simp [hnp]
          · intro hr
            have hcl := (h7 hr).1
            rw [h5.1 hcl] at hnp
            cases hnp
          · intro w hw v hv
            apply h8 w _ v hv
            simp only [List.mem_append, List.mem_cons] at hw ⊢
            rcases hw with hw | hw | hw
            · exact Or.inl hw
            · subst hw; cases hv
            · exact Or.inr (Or.inr hw)
          · simp only [List.filterMap_append, List.filterMap_cons, delivered, WorkerPc.isPast,
              Worker.task, hfe] at h9 ⊢
            exact perm_snoc_middle _ _ _ _ (by simpa using h9)
          · simpa [List.filter_append, List.filter_cons, WorkerPc.isStart] using h10
          · simp only [List.flatMap_append, ← h11]
            simp
          · simp only [measure, hs, List.map_append, List.sum_append, List.map_cons,
              List.sum_cons, WorkerPc.weight, List.length_append, List.length_singleton]
            omega
        · cases h
    | exiting =>
      simp only at h
      split at h
      · cases h
      · rename_i hwg
        injection h with h
        subst h
        obtain ⟨l₁, l₂, hs, hset⟩ := set_split s.workers k ⟨wc, wp, .exiting⟩
          ⟨wc, wp, .done⟩ hk
        simp only [hset]
        rw [hs] at h1 h2 h3 h6 h8 h9 h10
        refine ⟨⟨?_, ?_, ?_, h4, h5, ?_, h7, ?_, ?_, ?_, h11, h12⟩, ?_⟩
        · simp only [List.countP_append, List.countP_cons, WorkerPc.isDone] at h1 ⊢
          simp at h1 ⊢
          omega
        · simpa using h2
        · simpa [Worker.task] using h3
        · intro hp w hw
          simp only [List.mem_append, List.mem_cons] at hw
          rcases hw with hw | hw | hw
          · exact h6 hp w (by simp [hw])
          · subst hw; rfl
          · exact h6 hp w (by simp [hw])
        · intro w hw v hv
          apply h8 w _ v hv
          simp only [List.mem_append, List.mem_cons] at hw ⊢
          rcases hw with hw | hw | hw
          · exact Or.inl hw
          · subst hw; cases hv
          · exact Or.inr (Or.inr hw)
        · simpa [List.filterMap_append, List.filterMap_cons, delivered, WorkerPc.isPast,
            Worker.task] using h9
        · simpa [List.filter_append, List.filter_cons, WorkerPc.isStart, Worker.task] using h10
        · simp only [measure, hs, List.map_append, List.sum_append, List.map_cons,
            List.sum_cons, WorkerPc.weight]
          omega

theorem inv_step (cfg : Config) (up : Upstream) (g : Goroutine) (s s' : State)
    (hi : Inv cfg up s) (h : step cfg up g s = .next s') :
    Inv cfg up s' ∧ measure cfg s' < measure cfg s := by
  cases g with
  | main => exact inv_stepMain cfg up s s' hi h
  | closer => exact inv_stepCloser cfg up s s' hi h
  | worker k => exact inv_stepWorker cfg up k s s' hi h

theorem inv_reachable (cfg : Config) (up : Upstream) (s : State)
    (h : Reachable cfg up s) : Inv cfg up s := by
  induction h with
  | init => exact inv_init cfg up
  | step g _ hstep ih => exact (inv_step cfg up g _ _ ih hstep).1

/-- No action of any goroutine panics in a state that satisfies the invariant:
no send on a closed channel, no second close, no negative counter. -/
theorem inv_no_panic (cfg : Config) (up : Upstream) (g : Goroutine) (s : State)
    (hi : Inv cfg up s) (msg : String) : step cfg up g s ≠ .panic msg := by
  obtain ⟨h1, h2, h3, h4, h5, h6, h7, h8, h9, h10, h11, h12⟩ := hi
  cases g with
  | main =>
    simp only [step, stepMain]
    repeat' split
    all_goals simp
  | closer =>
    simp only [step, stepCloser]
    split
    · simp
    · split <;> simp
    · rename_i hc
      split
      · rename_i hcl
        rw [h5.1 hcl] at hc
        cases hc
      · simp
    · simp
  | worker k =>
    simp only [step, stepWorker]
    cases hk : s.workers[k]? with
    | none => simp
    | some w =>
      have hmem := mem_of_lookup _ _ _ hk
      obtain ⟨wc, wp, wpc⟩ := w
      cases wpc with
      | start => simp only; split <;> simp
      | done => simp
      | sending u =>
        simp only
        split
        · rename_i hcl
          have := h6 (by rw [h5.1 hcl]; rfl) _ hmem
          cases this
        · split <;> simp
      | exiting =>
        simp only
        split
        · rename_i hwg
          have hpos : 0 < s.workers.countP (fun w => !w.pc.isDone) :=
            List.countP_pos_iff.2 ⟨_, hmem, by simp [WorkerPc.isDone]⟩
          omega
        · simp

/-- No deadlock: while the caller has not returned, some goroutine can move. -/
theorem inv_progress (cfg : Config) (up : Upstream) (s : State) (hcap : 0 < cfg.concurrency)
    (hi : Inv cfg up s) (hr : s.main ≠ .returned) :
    ∃ g ∈ goroutines s, (step cfg up g s).isBlocked = false := by
  obtain ⟨h1, h2, h3, h4, h5, h6, h7, h8, h9, h10, h11, h12⟩ := hi
  have hmainIn : Goroutine.main ∈ goroutines s := by simp [goroutines]
  have hcloserIn : Goroutine.closer ∈ goroutines s := by simp [goroutines]
  cases hm : s.main with
  | returned => exact absurd hm hr
  | launchAdd i =>
    refine ⟨.main, hmainIn, ?_⟩
    simp only [step, stepMain, hm]
    split <;> rfl
  | launchGo i => exact ⟨.main, hmainIn, by simp [step, stepMain, hm, StepResult.isBlocked]⟩
  | spawnCloser => exact ⟨.main, hmainIn, by simp [step, stepMain, hm, StepResult.isBlocked]⟩
  | receiving =>
    cases hb : s.buf with
    | cons p rest =>
      exact ⟨.main, hmainIn, by simp [step, stepMain, hm, hb, StepResult.isBlocked]⟩
    | nil =>
      cases hcl : s.closed with
      | true =>
        exact ⟨.main, hmainIn, by simp [step, stepMain, hm, hb, hcl, StepResult.isBlocked]⟩
      | false =>
        cases hc : s.closer with
        | absent =>
          have := h4.1 hc
          simp [hm, MainPc.beforeCloser] at this
        | finished =>
          have := h5.2 hc
          simp [hcl] at this
        | closing =>
          exact ⟨.closer, hcloserIn, by simp [step, stepCloser, hc, hcl, StepResult.isBlocked]⟩
        | waiting =>
          by_cases hwg : s.wg = 0
          · exact ⟨.closer, hcloserIn, by simp [step, stepCloser, hc, hwg, StepResult.isBlocked]⟩
          · have hpos : 0 < s.workers.countP (fun w => !w.pc.isDone) := by
              simp only [hm, MainPc.pending] at h1
              omega
            obtain ⟨w, hw, hnd⟩ := List.countP_pos_iff.1 hpos
            obtain ⟨k, hklt, hk⟩ := List.mem_iff_getElem.1 hw
            have hk' : s.workers[k]? = some w := by
              rw [List.getElem?_eq_getElem hklt, hk]
            refine ⟨.worker k, ?_, ?_⟩
            · simp only [goroutines, List.mem_cons, List.mem_map, List.mem_range]
              exact Or.inr (Or.inr ⟨k, hklt, rfl⟩)
            · simp only [step, stepWorker, hk']
              obtain ⟨wc, wp, wpc⟩ := w
              cases wpc with
              | start => simp only; split <;> rfl
              | sending u => simp [hcl, hb, hcap, StepResult.isBlocked]
              | exiting => simp [hwg, StepResult.isBlocked]
              | done => simp [WorkerPc.isDone] at hnd

theorem getD_mem {α : Type} (l : List α) (n : Nat) (d : α) (hd : d ∈ l) : l.getD n d ∈ l := by
  rw [List.getD_eq_getElem?_getD]
  cases h : l[n]? with
  | none => simpa using hd
  | some x => simpa using mem_of_lookup l n x h

/-- Every run from a state that satisfies the invariant ends with the caller
returning, whatever the scheduler does, provided the fuel covers the measure. -/
theorem run_returns (cfg : Config) (up : Upstream) (sched : Nat → Nat)
    (hcap : 0 < cfg.concurrency) :
    ∀ (fuel t : Nat) (s : State), Reachable cfg up s → measure cfg s < fuel →
      ∃ s', run cfg up sched fuel t s = .ok s' ∧ s'.main = .returned ∧ Reachable cfg up s' := by
  intro fuel
  induction fuel with
  | zero => intro t s _ h; omega
  | succ fuel ih =>
    intro t s hreach hlt
    have hi := inv_reachable cfg up s hreach
    unfold run
    by_cases hr : s.main = .returned
    · exact ⟨s, by simp [hr], hr, hreach⟩
    · simp only [hr, if_false]
      obtain ⟨g₀, hg₀, hnb₀⟩ := inv_progress cfg up s hcap hi hr
      have hne : enabled cfg up s ≠ [] := by
        intro he
        have : g₀ ∈ enabled cfg up s := by
          simp only [enabled, List.mem_filter]
          exact ⟨hg₀, by simp [hnb₀]⟩
        rw [he] at this
        cases this
      cases he : enabled cfg up s with
      | nil => exact absurd he hne
      | cons g gs =>
        simp only
        have hmem : (g :: gs).getD (sched t % (g :: gs).length) g ∈ enabled cfg up s := by
          rw [he]
          exact getD_mem _ _ _ (by simp)
        generalize (g :: gs).getD (sched t % (g :: gs).length) g = pick at hmem
        have hnb : (step cfg up pick s).isBlocked = false := by
          simp only [enabled, List.mem_filter] at hmem
          simpa using hmem.2
        cases hs : step cfg up pick s with
        | blocked => simp [hs, StepResult.isBlocked] at hnb
        | panic msg => exact absurd hs (inv_no_panic cfg up pick s hi msg)
        | next s' =>
          simp only
          have hstep := inv_step cfg up pick s s' hi hs
          exact ih (t + 1) s' (Reachable.step pick hreach hs) (by omega)

theorem measure_init (cfg : Config) : measure cfg initState < runFuel cfg := by
  simp [measure, initState, MainPc.weight, CloserPc.weight, runFuel, pageCount]

theorem final_of_returned (cfg : Config) (up : Upstream) (s : State)
    (hreach : Reachable cfg up s) (hr : s.main = .returned) : Final cfg up s := by
  obtain ⟨h1, h2, h3, h4, h5, h6, h7, h8, h9, h10, h11, h12⟩ := inv_reachable cfg up s hreach
  have hclosed := (h7 hr).1
  have hbuf := (h7 hr).2
  have hfin := h5.1 hclosed
  have hdone : ∀ w ∈ s.workers, w.pc = .done := h6 (by rw [hfin]; rfl)
  have hlen : s.workers.length = pageCount cfg := by
    simpa [hr, MainPc.launchedOk] using h2
  have htasks : s.workers.map Worker.task = plannedTasks cfg (pageCount cfg) := by
    rw [h3, hlen]
  refine ⟨hclosed, hbuf, hfin, hdone, ?_, htasks, ?_, ?_, ?_, h12⟩
  · have h0 : s.workers.countP (fun w => !w.pc.isDone) = 0 := by
      rw [List.countP_eq_zero]
      intro w hw
      simp [hdone w hw, WorkerPc.isDone]
    simp [h1, h0, hr, MainPc.pending]
  · have hfilter : s.workers.filter (fun w => !w.pc.isStart) = s.workers := by
      rw [List.filter_eq_self]
      intro w hw
      simp [hdone w hw, WorkerPc.isStart]
    rw [hfilter, htasks] at h10
    exact h10
  · have hfm : s.workers.filterMap (delivered up)
        = (s.workers.map Worker.task).filterMap (fetched up) := by
      rw [List.filterMap_map]
      apply List.filterMap_congr
      intro w hw
      simp [delivered, hdone w hw, WorkerPc.isPast]
    rw [hfm, htasks] at h9
    exact h9
  · rw [← h11, hbuf]
    simp

/-- A call of `fetchAllUsers` returns under every scheduler, in a reachable
state where the caller has returned. -/
theorem execute_returns (cfg : Config) (up : Upstream) (sched : Nat → Nat)
    (hcap : 0 < cfg.concurrency) :
    ∃ s, execute cfg up sched = .ok s ∧ s.main = .returned ∧ Reachable cfg up s
      ∧ Final cfg up s := by
  obtain ⟨s, hrun, hret, hreach⟩ :=
    run_returns cfg up sched hcap (runFuel cfg) 0 initState Reachable.init (measure_init cfg)
  exact ⟨s, hrun, hret, hreach, final_of_returned cfg up s hreach hret⟩

theorem length_flatMap_pageUsers (l : List UsersResults) :
    (l.flatMap pageUsers).length = (l.map (fun p => p.Results.length)).sum := by
  induction l with
  | nil => rfl
  | cons p ps ih => simp [List.flatMap_cons, pageUsers, ih]

theorem successfulPages_eq (cfg : Config) (up : Upstream) :
    successfulPages cfg up
      = (List.range (pageCount cfg)).filterMap (fun i => fetched up (cfg.perPage, i + 1)) := by
  simp only [successfulPages, plannedTasks, List.filterMap_map]
  rfl

theorem fetched_eq_some (up : Upstream) (count page : Nat) (u : UsersResults) :
    fetched up (count, page) = some u ↔ fetchUser up count page = .ok u := by
  unfold fetched
  cases h : fetchUser up count page <;> simp

theorem mem_successfulPages (cfg : Config) (up : Upstream) (u : UsersResults) :
    u ∈ successfulPages cfg up
      ↔ ∃ i, i < pageCount cfg ∧ fetchUser up cfg.perPage (i + 1) = .ok u := by
  simp only [successfulPages_eq, List.mem_filterMap, List.mem_range, fetched_eq_some]

theorem length_filterMap_countP {α β : Type} (f : α → Option β) (l : List α) :
    (l.filterMap f).length = l.countP (fun a => (f a).isSome) := by
  induction l with
  | nil => rfl
  | cons a l ih =>
    cases h : f a <;> simp [List.filterMap_cons, List.countP_cons, h, ih]

theorem sum_map_const {α : Type} (f : α → Nat) (c : Nat) (l : List α)
    (h : ∀ a ∈ l, f a = c) : (l.map f).sum = l.length * c := by
  induction l with
  | nil => simp
  | cons a l ih =>
    have ha := h a (by simp)
    have hl := ih (fun b hb => h b (by simp [hb]))
    simp only [List.map_cons, List.sum_cons, List.length_cons, ha, hl]
    ring

/-- The number of users returned is the total size of the pages sent. -/
theorem final_len (cfg : Config) (up : Upstream) (s : State) (hf : Final cfg up s) :
    s.results.len = ((successfulPages cfg up).map (fun p => p.Results.length)).sum := by
  rw [GoSlice.len, hf.results, length_flatMap_pageUsers]
  exact ((hf.sent).map _).sum_eq

/-- Workers are launched with `count = PER_PAGE`. -/
theorem worker_count (cfg : Config) (up : Upstream) (s : State) (hi : Inv cfg up s) :
    ∀ w ∈ s.workers, w.count = cfg.perPage := by
  intro w hw
  have hmem : w.task ∈ s.workers.map Worker.task := List.mem_map_of_mem _ hw
  rw [hi.tasks] at hmem
  simp only [plannedTasks, List.mem_map, Worker.task, Prod.mk.injEq] at hmem
  obtain ⟨i, -, hc, -⟩ := hmem
  exact hc.symm

/-- The buffer of the channel never holds more than its capacity. -/
theorem buf_le_capacity (cfg : Config) (up : Upstream) (s : State)
    (h : Reachable cfg up s) : s.buf.length ≤ cfg.concurrency := by
  induction h with
  | init => simp [initState]
  | step g _ hstep ih =>
    rename_i s₁ s₂
    cases g with
    | main =>
      simp only [step, stepMain] at hstep
      split at hstep
      · split at hstep <;> (injection hstep with hstep; subst hstep; exact ih)
      · injection hstep with hstep; subst hstep; exact ih
      · injection hstep with hstep; subst hstep; exact ih
      · split at hstep
        · rename_i hb
          injection hstep with hstep
          subst hstep
          rw [hb] at ih
          simp only [List.length_cons] at ih
          simp only
          omega
        · split at hstep
          · injection hstep with hstep; subst hstep; exact ih
          · cases hstep
      · cases hstep
    | closer =>
      simp only [step, stepCloser] at hstep
      split at hstep
      · cases hstep
      · split at hstep
        · injection hstep with hstep; subst hstep; exact ih
        · cases hstep
      · split at hstep
        · cases hstep
        · injection hstep with hstep; subst hstep; exact ih
      · cases hstep
    | worker k =>
      simp only [step, stepWorker] at hstep
      split at hstep
      · cases hstep
      · split at hstep
        · split at hstep <;> (injection hstep with hstep; subst hstep; exact ih)
        · split at hstep
          · cases hstep
          · split at hstep
            · rename_i hlt
              injection hstep with hstep
              subst hstep
              simp only [List.length_append, List.length_singleton]
              omega
            · cases hstep
        · split at hstep
          · cases hstep
          · injection hstep with hstep; subst hstep; exact ih
        · cases hstep

theorem count_range_ne (n j : Nat) (hj : j < n) :
    (List.range n).countP (fun i => decide (i ≠ j)) = n - 1 := by
  have hsplit := List.length_eq_countP_add_countP (fun i => decide (i ≠ j)) (List.range n)
  have hone : (List.range n).countP (fun i => !decide (i ≠ j)) = 1 := by
    have hc : (List.range n).countP (fun i => !decide (i ≠ j)) = (List.range n).count j := by
      rw [List.count]
      apply List.countP_congr
      intro i _
      by_cases h : i = j <;> simp [h]
    rw [hc]
    exact List.count_eq_one_of_mem (List.nodup_range n) (List.mem_range.2 hj)
  simp only [List.length_range] at hsplit
  have hone' : (List.range n).countP (fun a => decide ¬(decide (a ≠ j) = true)) = 1 := by
    rw [← hone]
    apply List.countP_congr
    intro i _
    by_cases h : i = j <;> simp [h]
  omega

/-! ## The cache-aside handler -/

/-- C1. Cache hit: when `fetchFromRedis` returns `(v, nil)`, the response is
status 200 with body exactly `v`; the only call made is `fetchFromRedis`
(neither `fetchAllUsers` nor `storeInRedis`), no page fetch is issued and the
store is unchanged. -/
theorem getUsers_cache_hit (cfg : Config) (env : Env) (data : RedisData) (v : String)
    (hit : fetchFromRedis env.rdb data = (v, none)) :
    ∃ h, getUsers cfg env data = .ok h
      ∧ h.response = ⟨200, .text v⟩
      ∧ h.calls = [Call.fetchFromRedis]
      ∧ Call.fetchAllUsers ∉ h.calls
      ∧ (∀ val, Call.storeInRedis val ∉ h.calls)
      ∧ h.requests = []
      ∧ h.data = data := by
  refine ⟨⟨⟨200, .text v⟩, data, [Call.fetchFromRedis], []⟩, by simp only [getUsers, hit],
    rfl, rfl, ?_, ?_, rfl, rfl⟩
  · simp
  · intro val
    simp

theorem getUsers_cache_hit_witness :
    fetchFromRedis healthy (fun _ => some ⟨"[]", 0⟩) = ("[]", none)
      ∧ ∃ h, getUsers programConfig ⟨upDown, firstReady, healthy, plainQuote⟩
            (fun _ => some ⟨"[]", 0⟩) = .ok h
        ∧ h.response = ⟨200, .text "[]"⟩
        ∧ h.calls = [Call.fetchFromRedis]
        ∧ Call.fetchAllUsers ∉ h.calls
        ∧ (∀ val, Call.storeInRedis val ∉ h.calls)
        ∧ h.requests = []
        ∧ h.data = (fun _ => some ⟨"[]", 0⟩) :=
  ⟨rfl, getUsers_cache_hit programConfig ⟨upDown, firstReady, healthy, plainQuote⟩
    (fun _ => some ⟨"[]", 0⟩) "[]" rfl⟩

/-- C3. Cache read failure: when `fetchFromRedis` fails with an error other
than `redis.Nil`, the response is status 500 with the JSON object
`message: "Error fetching users from redis"`; the only call made is
`fetchFromRedis`, so no page fetch and no cache write is attempted. -/
theorem getUsers_read_failure (cfg : Config) (env : Env) (data : RedisData) (v : String)
    (err : GoError) (hfail : fetchFromRedis env.rdb data = (v, some err))
    (hne : err ≠ .redisNil) :
    ∃ h, getUsers cfg env data = .ok h
      ∧ h.response = ⟨500, .indentedJSON [("message", "Error fetching users from redis")]⟩
      ∧ h.calls = [Call.fetchFromRedis]
      ∧ Call.fetchAllUsers ∉ h.calls
      ∧ (∀ val, Call.storeInRedis val ∉ h.calls)
      ∧ h.requests = []
      ∧ h.data = data := by
  cases err with
  | redisNil => exact absurd rfl hne
  | other msg =>
    refine ⟨⟨⟨500, .indentedJSON [("message", "Error fetching users from redis")]⟩, data,
      [Call.fetchFromRedis], []⟩, by simp only [getUsers, hfail], rfl, rfl, ?_, ?_, rfl, rfl⟩
    · simp
    · intro val
      simp

theorem getUsers_read_failure_witness :
    fetchFromRedis ⟨some (.other "dial tcp: connection refused"), none⟩ emptyData
        = ("", some (.other "dial tcp: connection refused"))
      ∧ GoError.other "dial tcp: connection refused" ≠ .redisNil
      ∧ ∃ h, getUsers programConfig
            ⟨upFour, firstReady, ⟨some (.other "dial tcp: connection refused"), none⟩,
              plainQuote⟩ emptyData = .ok h
        ∧ h.response = ⟨500, .indentedJSON [("message", "Error fetching users from redis")]⟩
        ∧ h.calls = [Call.fetchFromRedis]
        ∧ Call.fetchAllUsers ∉ h.calls
        ∧ (∀ val, Call.storeInRedis val ∉ h.calls)
        ∧ h.requests = []
        ∧ h.data = emptyData :=
  ⟨rfl, by decide, getUsers_read_failure programConfig
    ⟨upFour, firstReady, ⟨some (.other "dial tcp: connection refused"), none⟩, plainQuote⟩
    emptyData "" (.other "dial tcp: connection refused") rfl (by decide)⟩

/-- C4. Cache write failure: when the read reports a miss (`redis.Nil`) and
`storeInRedis` returns an error, then for every upstream and every scheduling
of the aggregation the response is status 500 with the JSON object
`message: "Error storing users in redis"`; the body is not the aggregated
payload, and `storeInRedis` is called exactly once (no retry). -/
theorem getUsers_write_failure (cfg : Config) (env : Env) (data : RedisData) (v : String)
    (err : GoError) (hcap : 0 < cfg.concurrency)
    (miss : fetchFromRedis env.rdb data = (v, some .redisNil))
    (hset : ∀ val, (storeInRedis env.rdb data val).1 = some err) :
    ∃ users h, fetchAllUsers cfg env.up env.sched = .ok users
      ∧ getUsers cfg env data = .ok h
      ∧ h.response = ⟨500, .indentedJSON [("message", "Error storing users in redis")]⟩
      ∧ (∀ text, h.response.body ≠ .text text)
      ∧ h.calls = [Call.fetchFromRedis, Call.fetchAllUsers,
          Call.storeInRedis (encodeUsers env.quote users)]
      ∧ h.calls.countP Call.isStore = 1 := by
  obtain ⟨s, hexec, -, -, -⟩ := execute_returns cfg env.up env.sched hcap
  have hstore := hset (encodeUsers env.quote s.results)
  cases hst : storeInRedis env.rdb data (encodeUsers env.quote s.results) with
  | mk e data' =>
    rw [hst] at hstore
    simp only at hstore
    subst hstore
    refine ⟨s.results, ⟨⟨500, .indentedJSON [("message", "Error storing users in redis")]⟩,
      data', [Call.fetchFromRedis, Call.fetchAllUsers,
        Call.storeInRedis (encodeUsers env.quote s.results)], s.requests⟩, ?_, ?_, rfl, ?_,
      rfl, ?_⟩
    · simp [fetchAllUsers, hexec, Except.map]
    · simp only [getUsers, miss, hexec, hst]
    · intro text
      simp
    · simp [List.countP_cons, Call.isStore]

theorem getUsers_write_failure_witness :
    0 < smallConfig.concurrency
      ∧ fetchFromRedis readOnly emptyData = ("", some .redisNil)
      ∧ (∀ val, (storeInRedis readOnly emptyData val).1 = some (.other "READONLY"))
      ∧ ∃ users h, fetchAllUsers smallConfig upFour firstReady = .ok users
        ∧ getUsers smallConfig ⟨upFour, firstReady, readOnly, plainQuote⟩ emptyData = .ok h
        ∧ h.response = ⟨500, .indentedJSON [("message", "Error storing users in redis")]⟩
        ∧ (∀ text, h.response.body ≠ .text text)
        ∧ h.calls = [Call.fetchFromRedis, Call.fetchAllUsers,
            Call.storeInRedis (encodeUsers plainQuote users)]
        ∧ h.calls.countP Call.isStore = 1 :=
  ⟨by decide, rfl, fun _ => rfl,
    getUsers_write_failure smallConfig ⟨upFour, firstReady, readOnly, plainQuote⟩ emptyData ""
      (.other "READONLY") (by decide) rfl (fun _ => rfl)⟩

/-- C2. Cache miss then populate: when the read of key "users" reports a miss
(`redis.Nil`) and the write succeeds, then for every upstream and scheduling
`getUsers` responds with status 200 and body `p = encodeUsers(fetchAllUsers())`;
afterwards the store holds exactly `p` under key "users" with expiration 0 and
every other key is untouched; and the next request on that store answers 200
with the same body `p`, calling only `fetchFromRedis` and issuing no page
fetch.  The payload `p` is pinned as text: for a non-nil result it is `[`, the
objects of the users separated by commas, `]`, each object being the seven
members gender, first_name, last_name, email, city, country, uuid in that
order with the quoted field values, and a non-nil result is never empty; for
the nil result it is `null`. -/
theorem getUsers_miss_then_hit (cfg : Config) (env : Env) (data : RedisData) (v : String)
    (hcap : 0 < cfg.concurrency)
    (miss : fetchFromRedis env.rdb data = (v, some .redisNil))
    (hset : ∀ val, (storeInRedis env.rdb data val).1 = none) :
    ∃ users h, fetchAllUsers cfg env.up env.sched = .ok users
      ∧ getUsers cfg env data = .ok h
      ∧ h.response = ⟨200, .text (encodeUsers env.quote users)⟩
      ∧ h.data REDIS_USERS_KEY = some ⟨encodeUsers env.quote users, 0⟩
      ∧ (∀ key, key ≠ REDIS_USERS_KEY → h.data key = data key)
      ∧ (∀ env2 : Env, env2.rdb.getErr = none →
          ∃ h2, getUsers cfg env2 h.data = .ok h2
            ∧ h2.response = ⟨200, .text (encodeUsers env.quote users)⟩
            ∧ h2.calls = [Call.fetchFromRedis]
            ∧ h2.requests = []
            ∧ h2.data = h.data)
      ∧ (users = .nil → encodeUsers env.quote users = "null")
      ∧ (∀ l, users = .ofList l → l ≠ []
          ∧ encodeUsers env.quote users
            = "[" ++ ",".intercalate (l.map (fun u =>
              "\x7b" ++ ",".intercalate
                ["\x22gender\x22:" ++ env.quote u.Gender,
                 "\x22first_name\x22:" ++ env.quote u.FirstName,
                 "\x22last_name\x22:" ++ env.quote u.LastName,
                 "\x22email\x22:" ++ env.quote u.Email,
                 "\x22city\x22:" ++ env.quote u.City,
                 "\x22country\x22:" ++ env.quote u.Country,
                 "\x22uuid\x22:" ++ env.quote u.Uuid] ++ "\x7d")) ++ "]") := by
  obtain ⟨s, hexec, -, -, hfinal⟩ := execute_returns cfg env.up env.sched hcap
  have hstore := hset (encodeUsers env.quote s.results)
  have hnone : env.rdb.setErr = none := by
    cases hse : env.rdb.setErr with
    | none => rfl
    | some e => simp [storeInRedis, redisSet, hse] at hstore
  have hst : storeInRedis env.rdb data (encodeUsers env.quote s.results)
      = (none, fun k => if k = REDIS_USERS_KEY
          then some ⟨encodeUsers env.quote s.results, 0⟩ else data k) := by
    simp [storeInRedis, redisSet, hnone]
  refine ⟨s.results, ⟨⟨200, .text (encodeUsers env.quote s.results)⟩,
    (fun k => if k = REDIS_USERS_KEY then some ⟨encodeUsers env.quote s.results, 0⟩
      else data k),
    [Call.fetchFromRedis, Call.fetchAllUsers,
      Call.storeInRedis (encodeUsers env.quote s.results)], s.requests⟩, ?_, ?_, rfl, ?_, ?_, ?_,
    ?_, ?_⟩
  · simp [fetchAllUsers, hexec, Except.map]
  · simp only [getUsers, miss, hexec, hst]
  · simp
  · intro key hkey
    simp [hkey]
  · intro env2 hget
    refine ⟨⟨⟨200, .text (encodeUsers env.quote s.results)⟩, _, [Call.fetchFromRedis], []⟩,
      ?_, rfl, rfl, rfl, rfl⟩
    simp [getUsers, fetchFromRedis, redisGet, hget]
  · intro hnil
    rw [hnil]
    rfl
  · intro l hl
    refine ⟨?_, ?_⟩
    · intro hempty
      apply hfinal.resultsNil
      rw [hl, hempty]
    · rw [hl]
      rfl

set_option maxRecDepth 100000 in
theorem getUsers_miss_then_hit_witness :
    0 < smallConfig.concurrency
      ∧ fetchFromRedis healthy emptyData = ("", some .redisNil)
      ∧ (∀ val, (storeInRedis healthy emptyData val).1 = none)
      ∧ (fetchAllUsers smallConfig upFour firstReady).map GoSlice.len = .ok 8
      ∧ ∃ users h, fetchAllUsers smallConfig upFour firstReady = .ok users
        ∧ getUsers smallConfig ⟨upFour, firstReady, healthy, plainQuote⟩ emptyData = .ok h
        ∧ h.response = ⟨200, .text (encodeUsers plainQuote users)⟩
        ∧ h.data REDIS_USERS_KEY = some ⟨encodeUsers plainQuote users, 0⟩
        ∧ (∀ key, key ≠ REDIS_USERS_KEY → h.data key = emptyData key)
        ∧ (∀ env2 : Env, env2.rdb.getErr = none →
            ∃ h2, getUsers smallConfig env2 h.data = .ok h2
              ∧ h2.response = ⟨200, .text (encodeUsers plainQuote users)⟩
              ∧ h2.calls = [Call.fetchFromRedis]
              ∧ h2.requests = []
              ∧ h2.data = h.data)
        ∧ users.len = 8
        ∧ encodeUsers plainQuote users
          = ("[\x7b\x22gender\x22:\x22female\x22,\x22first_name\x22:\x22first1\x22,\x22last_name\x22:\x22last\x22,\x22email\x22:\x22\x22,\x22city\x22:\x22city\x22,\x22country\x22:\x22country\x22,\x22uuid\x22:\x22uuid1\x22\x7d"
            ++ ",\x7b\x22gender\x22:\x22female\x22,\x22first_name\x22:\x22first2\x22,\x22last_name\x22:\x22last\x22,\x22email\x22:\x22\x22,\x22city\x22:\x22city\x22,\x22country\x22:\x22country\x22,\x22uuid\x22:\x22uuid2\x22\x7d"
            ++ ",\x7b\x22gender\x22:\x22female\x22,\x22first_name\x22:\x22first3\x22,\x22last_name\x22:\x22last\x22,\x22email\x22:\x22\x22,\x22city\x22:\x22city\x22,\x22country\x22:\x22country\x22,\x22uuid\x22:\x22uuid3\x22\x7d"
            ++ ",\x7b\x22gender\x22:\x22female\x22,\x22first_name\x22:\x22first4\x22,\x22last_name\x22:\x22last\x22,\x22email\x22:\x22\x22,\x22city\x22:\x22city\x22,\x22country\x22:\x22country\x22,\x22uuid\x22:\x22uuid4\x22\x7d"
            ++ ",\x7b\x22gender\x22:\x22female\x22,\x22first_name\x22:\x22first1\x22,\x22last_name\x22:\x22last\x22,\x22email\x22:\x22\x22,\x22city\x22:\x22city\x22,\x22country\x22:\x22country\x22,\x22uuid\x22:\x22uuid1\x22\x7d"
            ++ ",\x7b\x22gender\x22:\x22female\x22,\x22first_name\x22:\x22first2\x22,\x22last_name\x22:\x22last\x22,\x22email\x22:\x22\x22,\x22city\x22:\x22city\x22,\x22country\x22:\x22country\x22,\x22uuid\x22:\x22uuid2\x22\x7d"
            ++ ",\x7b\x22gender\x22:\x22female\x22,\x22first_name\x22:\x22first3\x22,\x22last_name\x22:\x22last\x22,\x22email\x22:\x22\x22,\x22city\x22:\x22city\x22,\x22country\x22:\x22country\x22,\x22uuid\x22:\x22uuid3\x22\x7d"
            ++ ",\x7b\x22gender\x22:\x22female\x22,\x22first_name\x22:\x22first4\x22,\x22last_name\x22:\x22last\x22,\x22email\x22:\x22\x22,\x22city\x22:\x22city\x22,\x22country\x22:\x22country\x22,\x22uuid\x22:\x22uuid4\x22\x7d]")
        ∧ h.response = ⟨200, .text
            ("[\x7b\x22gender\x22:\x22female\x22,\x22first_name\x22:\x22first1\x22,\x22last_name\x22:\x22last\x22,\x22email\x22:\x22\x22,\x22city\x22:\x22city\x22,\x22country\x22:\x22country\x22,\x22uuid\x22:\x22uuid1\x22\x7d"
            ++ ",\x7b\x22gender\x22:\x22female\x22,\x22first_name\x22:\x22first2\x22,\x22last_name\x22:\x22last\x22,\x22email\x22:\x22\x22,\x22city\x22:\x22city\x22,\x22country\x22:\x22country\x22,\x22uuid\x22:\x22uuid2\x22\x7d"
            ++ ",\x7b\x22gender\x22:\x22female\x22,\x22first_name\x22:\x22first3\x22,\x22last_name\x22:\x22last\x22,\x22email\x22:\x22\x22,\x22city\x22:\x22city\x22,\x22country\x22:\x22country\x22,\x22uuid\x22:\x22uuid3\x22\x7d"
            ++ ",\x7b\x22gender\x22:\x22female\x22,\x22first_name\x22:\x22first4\x22,\x22last_name\x22:\x22last\x22,\x22email\x22:\x22\x22,\x22city\x22:\x22city\x22,\x22country\x22:\x22country\x22,\x22uuid\x22:\x22uuid4\x22\x7d"
            ++ ",\x7b\x22gender\x22:\x22female\x22,\x22first_name\x22:\x22first1\x22,\x22last_name\x22:\x22last\x22,\x22email\x22:\x22\x22,\x22city\x22:\x22city\x22,\x22country\x22:\x22country\x22,\x22uuid\x22:\x22uuid1\x22\x7d"
            ++ ",\x7b\x22gender\x22:\x22female\x22,\x22first_name\x22:\x22first2\x22,\x22last_name\x22:\x22last\x22,\x22email\x22:\x22\x22,\x22city\x22:\x22city\x22,\x22country\x22:\x22country\x22,\x22uuid\x22:\x22uuid2\x22\x7d"
            ++ ",\x7b\x22gender\x22:\x22female\x22,\x22first_name\x22:\x22first3\x22,\x22last_name\x22:\x22last\x22,\x22email\x22:\x22\x22,\x22city\x22:\x22city\x22,\x22country\x22:\x22country\x22,\x22uuid\x22:\x22uuid3\x22\x7d"
            ++ ",\x7b\x22gender\x22:\x22female\x22,\x22first_name\x22:\x22first4\x22,\x22last_name\x22:\x22last\x22,\x22email\x22:\x22\x22,\x22city\x22:\x22city\x22,\x22country\x22:\x22country\x22,\x22uuid\x22:\x22uuid4\x22\x7d]")⟩
        ∧ h.data REDIS_USERS_KEY = some ⟨
            ("[\x7b\x22gender\x22:\x22female\x22,\x22first_name\x22:\x22first1\x22,\x22last_name\x22:\x22last\x22,\x22email\x22:\x22\x22,\x22city\x22:\x22city\x22,\x22country\x22:\x22country\x22,\x22uuid\x22:\x22uuid1\x22\x7d"
            ++ ",\x7b\x22gender\x22:\x22female\x22,\x22first_name\x22:\x22first2\x22,\x22last_name\x22:\x22last\x22,\x22email\x22:\x22\x22,\x22city\x22:\x22city\x22,\x22country\x22:\x22country\x22,\x22uuid\x22:\x22uuid2\x22\x7d"
            ++ ",\x7b\x22gender\x22:\x22female\x22,\x22first_name\x22:\x22first3\x22,\x22last_name\x22:\x22last\x22,\x22email\x22:\x22\x22,\x22city\x22:\x22city\x22,\x22country\x22:\x22country\x22,\x22uuid\x22:\x22uuid3\x22\x7d"
            ++ ",\x7b\x22gender\x22:\x22female\x22,\x22first_name\x22:\x22first4\x22,\x22last_name\x22:\x22last\x22,\x22email\x22:\x22\x22,\x22city\x22:\x22city\x22,\x22country\x22:\x22country\x22,\x22uuid\x22:\x22uuid4\x22\x7d"
            ++ ",\x7b\x22gender\x22:\x22female\x22,\x22first_name\x22:\x22first1\x22,\x22last_name\x22:\x22last\x22,\x22email\x22:\x22\x22,\x22city\x22:\x22city\x22,\x22country\x22:\x22country\x22,\x22uuid\x22:\x22uuid1\x22\x7d"
            ++ ",\x7b\x22gender\x22:\x22female\x22,\x22first_name\x22:\x22first2\x22,\x22last_name\x22:\x22last\x22,\x22email\x22:\x22\x22,\x22city\x22:\x22city\x22,\x22country\x22:\x22country\x22,\x22uuid\x22:\x22uuid2\x22\x7d"
            ++ ",\x7b\x22gender\x22:\x22female\x22,\x22first_name\x22:\x22first3\x22,\x22last_name\x22:\x22last\x22,\x22email\x22:\x22\x22,\x22city\x22:\x22city\x22,\x22country\x22:\x22country\x22,\x22uuid\x22:\x22uuid3\x22\x7d"
            ++ ",\x7b\x22gender\x22:\x22female\x22,\x22first_name\x22:\x22first4\x22,\x22last_name\x22:\x22last\x22,\x22email\x22:\x22\x22,\x22city\x22:\x22city\x22,\x22country\x22:\x22country\x22,\x22uuid\x22:\x22uuid4\x22\x7d]"), 0⟩
        ∧ ∀ env2 : Env, env2.rdb.getErr = none →
            ∃ h2, getUsers smallConfig env2 h.data = .ok h2
              ∧ h2.requests = []
              ∧ h2.response = ⟨200, .text
            ("[\x7b\x22gender\x22:\x22female\x22,\x22first_name\x22:\x22first1\x22,\x22last_name\x22:\x22last\x22,\x22email\x22:\x22\x22,\x22city\x22:\x22city\x22,\x22country\x22:\x22country\x22,\x22uuid\x22:\x22uuid1\x22\x7d"
            ++ ",\x7b\x22gender\x22:\x22female\x22,\x22first_name\x22:\x22first2\x22,\x22last_name\x22:\x22last\x22,\x22email\x22:\x22\x22,\x22city\x22:\x22city\x22,\x22country\x22:\x22country\x22,\x22uuid\x22:\x22uuid2\x22\x7d"
            ++ ",\x7b\x22gender\x22:\x22female\x22,\x22first_name\x22:\x22first3\x22,\x22last_name\x22:\x22last\x22,\x22email\x22:\x22\x22,\x22city\x22:\x22city\x22,\x22country\x22:\x22country\x22,\x22uuid\x22:\x22uuid3\x22\x7d"
            ++ ",\x7b\x22gender\x22:\x22female\x22,\x22first_name\x22:\x22first4\x22,\x22last_name\x22:\x22last\x22,\x22email\x22:\x22\x22,\x22city\x22:\x22city\x22,\x22country\x22:\x22country\x22,\x22uuid\x22:\x22uuid4\x22\x7d"
            ++ ",\x7b\x22gender\x22:\x22female\x22,\x22first_name\x22:\x22first1\x22,\x22last_name\x22:\x22last\x22,\x22email\x22:\x22\x22,\x22city\x22:\x22city\x22,\x22country\x22:\x22country\x22,\x22uuid\x22:\x22uuid1\x22\x7d"
            ++ ",\x7b\x22gender\x22:\x22female\x22,\x22first_name\x22:\x22first2\x22,\x22last_name\x22:\x22last\x22,\x22email\x22:\x22\x22,\x22city\x22:\x22city\x22,\x22country\x22:\x22country\x22,\x22uuid\x22:\x22uuid2\x22\x7d"
            ++ ",\x7b\x22gender\x22:\x22female\x22,\x22first_name\x22:\x22first3\x22,\x22last_name\x22:\x22last\x22,\x22email\x22:\x22\x22,\x22city\x22:\x22city\x22,\x22country\x22:\x22country\x22,\x22uuid\x22:\x22uuid3\x22\x7d"
            ++ ",\x7b\x22gender\x22:\x22female\x22,\x22first_name\x22:\x22first4\x22,\x22last_name\x22:\x22last\x22,\x22email\x22:\x22\x22,\x22city\x22:\x22city\x22,\x22country\x22:\x22country\x22,\x22uuid\x22:\x22uuid4\x22\x7d]")⟩ := by
  refine ⟨by decide, rfl, fun _ => rfl, rfl, ?_⟩
  obtain ⟨users, h, h1, h2, h3, h4, h5, h6, -, -⟩ :=
    getUsers_miss_then_hit smallConfig ⟨upFour, firstReady, healthy, plainQuote⟩ emptyData ""
      (by decide) rfl (fun _ => rfl)
  have hrun : fetchAllUsers smallConfig upFour firstReady
      = .ok (.ofList (samplePage.Results.map normalize ++ samplePage.Results.map normalize)) :=
    rfl
  have husers : users
      = .ofList (samplePage.Results.map normalize ++ samplePage.Results.map normalize) := by
    rw [hrun] at h1
    injection h1 with h1
    exact h1.symm
  have htext : encodeUsers plainQuote users
      = ("[\x7b\x22gender\x22:\x22female\x22,\x22first_name\x22:\x22first1\x22,\x22last_name\x22:\x22last\x22,\x22email\x22:\x22\x22,\x22city\x22:\x22city\x22,\x22country\x22:\x22country\x22,\x22uuid\x22:\x22uuid1\x22\x7d"
          ++ ",\x7b\x22gender\x22:\x22female\x22,\x22first_name\x22:\x22first2\x22,\x22last_name\x22:\x22last\x22,\x22email\x22:\x22\x22,\x22city\x22:\x22city\x22,\x22country\x22:\x22country\x22,\x22uuid\x22:\x22uuid2\x22\x7d"
          ++ ",\x7b\x22gender\x22:\x22female\x22,\x22first_name\x22:\x22first3\x22,\x22last_name\x22:\x22last\x22,\x22email\x22:\x22\x22,\x22city\x22:\x22city\x22,\x22country\x22:\x22country\x22,\x22uuid\x22:\x22uuid3\x22\x7d"
          ++ ",\x7b\x22gender\x22:\x22female\x22,\x22first_name\x22:\x22first4\x22,\x22last_name\x22:\x22last\x22,\x22email\x22:\x22\x22,\x22city\x22:\x22city\x22,\x22country\x22:\x22country\x22,\x22uuid\x22:\x22uuid4\x22\x7d"
          ++ ",\x7b\x22gender\x22:\x22female\x22,\x22first_name\x22:\x22first1\x22,\x22last_name\x22:\x22last\x22,\x22email\x22:\x22\x22,\x22city\x22:\x22city\x22,\x22country\x22:\x22country\x22,\x22uuid\x22:\x22uuid1\x22\x7d"
          ++ ",\x7b\x22gender\x22:\x22female\x22,\x22first_name\x22:\x22first2\x22,\x22last_name\x22:\x22last\x22,\x22email\x22:\x22\x22,\x22city\x22:\x22city\x22,\x22country\x22:\x22country\x22,\x22uuid\x22:\x22uuid2\x22\x7d"
          ++ ",\x7b\x22gender\x22:\x22female\x22,\x22first_name\x22:\x22first3\x22,\x22last_name\x22:\x22last\x22,\x22email\x22:\x22\x22,\x22city\x22:\x22city\x22,\x22country\x22:\x22country\x22,\x22uuid\x22:\x22uuid3\x22\x7d"
          ++ ",\x7b\x22gender\x22:\x22female\x22,\x22first_name\x22:\x22first4\x22,\x22last_name\x22:\x22last\x22,\x22email\x22:\x22\x22,\x22city\x22:\x22city\x22,\x22country\x22:\x22country\x22,\x22uuid\x22:\x22uuid4\x22\x7d]") := by
    rw [husers]
    rfl
  refine ⟨users, h, h1, h2, h3, h4, h5, h6, ?_, htext, ?_, ?_, ?_⟩
  · rw [husers]
    rfl
  · rw [← htext]
    exact h3
  · rw [← htext]
    exact h4
  · intro env2 hget
    obtain ⟨h2', e1, e2, -, e4, -⟩ := h6 env2 hget
    refine ⟨h2', e1, e4, ?_⟩
    rw [← htext]
    exact e2

/-! ## The aggregation -/

/-- The tasks recorded in the state in which a run ends. -/
theorem page_plan_run (cfg : Config) (up : Upstream) (sched : Nat → Nat)
    (hper : 0 < cfg.perPage) (hcap : 0 < cfg.concurrency) :
    ∃ s, execute cfg up sched = .ok s ∧ s.main = .returned
      ∧ s.workers.length = cfg.totalRecords / cfg.perPage
      ∧ s.workers.map Worker.task
          = (List.range (cfg.totalRecords / cfg.perPage)).map (fun i => (cfg.perPage, i + 1))
      ∧ (∀ w ∈ s.workers, w.count = cfg.perPage)
      ∧ (∀ p, (s.workers.map (fun w => w.page)).count p
          = if 1 ≤ p ∧ p ≤ cfg.totalRecords / cfg.perPage then 1 else 0)
      ∧ List.Perm s.requests
          ((List.range (cfg.totalRecords / cfg.perPage)).map (fun i => (cfg.perPage, i + 1)))
      ∧ cfg.totalRecords / cfg.perPage * cfg.perPage ≤ cfg.totalRecords
      ∧ cfg.totalRecords - cfg.totalRecords / cfg.perPage * cfg.perPage < cfg.perPage
      ∧ (cfg.perPage ∣ cfg.totalRecords →
          cfg.totalRecords / cfg.perPage * cfg.perPage = cfg.totalRecords)
      ∧ (cfg = programConfig →
          s.workers.map Worker.task = [(3750, 1), (3750, 2), (3750, 3), (3750, 4)]) := by
  obtain ⟨s, hexec, hret, hreach, hf⟩ := execute_returns cfg up sched hcap
  have htasks : s.workers.map Worker.task
      = (List.range (cfg.totalRecords / cfg.perPage)).map (fun i => (cfg.perPage, i + 1)) :=
    hf.tasks
  have hpages : s.workers.map (fun w => w.page)
      = (List.range (cfg.totalRecords / cfg.perPage)).map (fun i => i + 1) := by
    have := congrArg (List.map Prod.snd) htasks
    simpa [List.map_map, Function.comp_def, Worker.task] using this
  refine ⟨s, hexec, hret, ?_, htasks, worker_count cfg up s (inv_reachable cfg up s hreach),
    ?_, hf.requests, Nat.div_mul_le_self _ _, ?_, ?_, ?_⟩
  · have := congrArg List.length htasks
    simpa using this
  · intro p
    rw [hpages]
    have hnodup : ((List.range (cfg.totalRecords / cfg.perPage)).map (fun i => i + 1)).Nodup :=
      (List.nodup_range _).map (fun a b h => by simpa using h)
    split
    · rename_i hp
      apply List.count_eq_one_of_mem hnodup
      simp only [List.mem_map, List.mem_range]
      exact ⟨p - 1, by omega, by omega⟩
    · rename_i hp
      apply List.count_eq_zero_of_not_mem
      simp only [List.mem_map, List.mem_range, not_exists, not_and]
      intro i hi hip
      omega
  · have h1 := Nat.div_add_mod cfg.totalRecords cfg.perPage
    have h2 := Nat.mod_lt cfg.totalRecords hper
    have h3 : cfg.totalRecords / cfg.perPage * cfg.perPage
        = cfg.perPage * (cfg.totalRecords / cfg.perPage) := Nat.mul_comm _ _
    omega
  · intro hdiv
    exact Nat.div_mul_cancel hdiv
  · intro hcfg
    rw [htasks, hcfg]
    decide

/-- C5. Page plan, for a positive `perPage`, every upstream and every
interleaving.  In every reachable state the tasks launched so far are the
first ones of the plan `(perPage, 1), (perPage, 2), ...`, at most
`pages = totalRecords / perPage` of them, and exactly `pages` once the launch
loop is over.  When the channel has a positive capacity the call returns under
every scheduler with exactly `pages` tasks launched, the `i`-th with arguments
`(perPage, i + 1)`: every page index 1..pages occurs once and no other index
occurs, each task requests `perPage` records, and `fetchUser` was called once
with each of these arguments.  Hence `pages * perPage ≤ totalRecords` with a
remainder below `perPage`, which is zero when `perPage` divides
`totalRecords`.  With the constants of the program the tasks are pages 1..4
of 3750 records. -/
theorem fetchAllUsers_page_plan (cfg : Config) (up : Upstream) (hper : 0 < cfg.perPage) :
    (∀ s, Reachable cfg up s →
        s.workers.map Worker.task
          = (List.range s.workers.length).map (fun i => (cfg.perPage, i + 1))
        ∧ s.workers.length ≤ cfg.totalRecords / cfg.perPage
        ∧ ((∀ i, s.main ≠ .launchAdd i ∧ s.main ≠ .launchGo i) →
            s.workers.length = cfg.totalRecords / cfg.perPage))
      ∧ (0 < cfg.concurrency → ∀ sched : Nat → Nat,
          ∃ s, execute cfg up sched = .ok s ∧ s.main = .returned
            ∧ s.workers.length = cfg.totalRecords / cfg.perPage
            ∧ s.workers.map Worker.task
                = (List.range (cfg.totalRecords / cfg.perPage)).map
                    (fun i => (cfg.perPage, i + 1))
            ∧ (∀ w ∈ s.workers, w.count = cfg.perPage)
            ∧ (∀ p, (s.workers.map (fun w => w.page)).count p
                = if 1 ≤ p ∧ p ≤ cfg.totalRecords / cfg.perPage then 1 else 0)
            ∧ List.Perm s.requests
                ((List.range (cfg.totalRecords / cfg.perPage)).map
                  (fun i => (cfg.perPage, i + 1)))
            ∧ (cfg = programConfig →
                s.workers.map Worker.task = [(3750, 1), (3750, 2), (3750, 3), (3750, 4)]))
      ∧ cfg.totalRecords / cfg.perPage * cfg.perPage ≤ cfg.totalRecords
      ∧ cfg.totalRecords - cfg.totalRecords / cfg.perPage * cfg.perPage < cfg.perPage
      ∧ (cfg.perPage ∣ cfg.totalRecords →
          cfg.totalRecords / cfg.perPage * cfg.perPage = cfg.totalRecords)
      ∧ programConfig.totalRecords / programConfig.perPage = 4 := by
  refine ⟨?_, ?_, Nat.div_mul_le_self _ _, ?_, fun hdiv => Nat.div_mul_cancel hdiv,
    by decide⟩
  · intro s hreach
    have hi := inv_reachable cfg up s hreach
    have hl := hi.launched
    refine ⟨hi.tasks, ?_, ?_⟩
    · cases hm : s.main <;> simp only [hm, MainPc.launchedOk, pageCount] at hl <;> omega
    · intro hloop
      cases hm : s.main with
      | launchAdd i => exact absurd hm (hloop i).1
      | launchGo i => exact absurd hm (hloop i).2
      | spawnCloser => simpa [hm, MainPc.launchedOk, pageCount] using hl
      | receiving => simpa [hm, MainPc.launchedOk, pageCount] using hl
      | returned => simpa [hm, MainPc.launchedOk, pageCount] using hl
  · intro hcap sched
    obtain ⟨s, h1, h2, h3, h4, h5, h6, h7, -, -, -, h8⟩ := page_plan_run cfg up sched hper hcap
    exact ⟨s, h1, h2, h3, h4, h5, h6, h7, h8⟩
  · have h1 := Nat.div_add_mod cfg.totalRecords cfg.perPage
    have h2 := Nat.mod_lt cfg.totalRecords hper
    have h3 : cfg.totalRecords / cfg.perPage * cfg.perPage
        = cfg.perPage * (cfg.totalRecords / cfg.perPage) := Nat.mul_comm _ _
    omega

theorem fetchAllUsers_page_plan_witness :
    0 < programConfig.perPage
      ∧ (∀ sched : Nat → Nat, ∃ s, execute programConfig upFour sched = .ok s
          ∧ s.workers.map Worker.task = [(3750, 1), (3750, 2), (3750, 3), (3750, 4)]) :=
  ⟨by decide, fun sched => by
    obtain ⟨s, h1, -, -, -, -, -, -, h8⟩ :=
      (fetchAllUsers_page_plan programConfig upFour (by decide)).2.1 (by decide) sched
    exact ⟨s, h1, h8 rfl⟩⟩

/-- C6 as stated fails: with `perPage = 4` dividing `totalRecords = 8`, both
page fetches return a nil error (status 200, a body that decodes to an empty
`Results`), and `fetchAllUsers` returns a slice of length 0, not 8. -/
theorem fetchAllUsers_cardinality_counterexample :
    ¬ (∀ (cfg : Config) (up : Upstream) (sched : Nat → Nat),
        0 < cfg.concurrency → cfg.perPage ∣ cfg.totalRecords →
        (∀ i, i < cfg.totalRecords / cfg.perPage →
          ∃ u, fetchUser up cfg.perPage (i + 1) = .ok u) →
        ∃ users, fetchAllUsers cfg up sched = .ok users ∧ users.len = cfg.totalRecords) := by
  intro h
  obtain ⟨users, hrun, hlen⟩ := h smallConfig upEmpty firstReady (by decide) (by decide)
    (fun i _ => ⟨⟨[]⟩, rfl⟩)
  have hnil : fetchAllUsers smallConfig upEmpty firstReady = .ok .nil := rfl
  rw [hnil] at hrun
  injection hrun with hrun
  subst hrun
  simp [GoSlice.len, GoSlice.toList, smallConfig] at hlen

/-- C6, amended. For `perPage` dividing `totalRecords`, if every page fetch
1..pages returns a nil error and a page of exactly `perPage` records, then
under every scheduler `fetchAllUsers` returns exactly `totalRecords` users,
and each of them is the normalisation of a raw record of one of the fetched
pages. -/
theorem fetchAllUsers_cardinality (cfg : Config) (up : Upstream) (sched : Nat → Nat)
    (hcap : 0 < cfg.concurrency) (hdiv : cfg.perPage ∣ cfg.totalRecords)
    (hall : ∀ i, i < cfg.totalRecords / cfg.perPage →
      ∃ u, fetchUser up cfg.perPage (i + 1) = .ok u ∧ u.Results.length = cfg.perPage) :
    ∃ users, fetchAllUsers cfg up sched = .ok users
      ∧ users.len = cfg.totalRecords
      ∧ ∀ x ∈ users.toList, ∃ i, i < cfg.totalRecords / cfg.perPage ∧
          ∃ u, fetchUser up cfg.perPage (i + 1) = .ok u ∧ ∃ raw ∈ u.Results, x = normalize raw := by
  obtain ⟨s, hexec, hret, hreach, hf⟩ := execute_returns cfg up sched hcap
  refine ⟨s.results, by simp [fetchAllUsers, hexec, Except.map], ?_, ?_⟩
  · rw [final_len cfg up s hf]
    have hsize : ∀ u ∈ successfulPages cfg up, u.Results.length = cfg.perPage := by
      intro u hu
      obtain ⟨i, hi, hfu⟩ := (mem_successfulPages cfg up u).1 hu
      obtain ⟨u', hfu', hlen⟩ := hall i hi
      rw [hfu] at hfu'
      injection hfu' with hfu'
      rw [hfu']
      exact hlen
    rw [sum_map_const _ cfg.perPage _ hsize]
    have hcount : (successfulPages cfg up).length = pageCount cfg := by
      rw [successfulPages_eq, length_filterMap_countP]
      have : (List.range (pageCount cfg)).countP
          (fun i => (fetched up (cfg.perPage, i + 1)).isSome)
          = (List.range (pageCount cfg)).length := by
        rw [List.countP_eq_length]
        intro i hi
        obtain ⟨u, hfu, -⟩ := hall i (List.mem_range.1 hi)
        simp [(fetched_eq_some up cfg.perPage (i + 1) u).2 hfu]
      simpa using this
    rw [hcount]
    exact Nat.div_mul_cancel hdiv
  · intro x hx
    rw [hf.results] at hx
    simp only [List.mem_flatMap, pageUsers, List.mem_map] at hx
    obtain ⟨u, hu, raw, hraw, hxr⟩ := hx
    have hu' : u ∈ successfulPages cfg up := (hf.sent).mem_iff.1 hu
    obtain ⟨i, hi, hfu⟩ := (mem_successfulPages cfg up u).1 hu'
    exact ⟨i, hi, u, hfu, raw, hraw, hxr.symm⟩

theorem fetchAllUsers_cardinality_witness :
    0 < smallConfig.concurrency ∧ smallConfig.perPage ∣ smallConfig.totalRecords
      ∧ (∀ i, i < smallConfig.totalRecords / smallConfig.perPage →
          ∃ u, fetchUser upFour smallConfig.perPage (i + 1) = .ok u
            ∧ u.Results.length = smallConfig.perPage)
      ∧ ∃ users, fetchAllUsers smallConfig upFour firstReady = .ok users
        ∧ users.len = smallConfig.totalRecords
        ∧ ∀ x ∈ users.toList, ∃ i, i < smallConfig.totalRecords / smallConfig.perPage ∧
            ∃ u, fetchUser upFour smallConfig.perPage (i + 1) = .ok u
              ∧ ∃ raw ∈ u.Results, x = normalize raw :=
  ⟨by decide, by decide, fun _ _ => ⟨samplePage, rfl, rfl⟩,
    fetchAllUsers_cardinality smallConfig upFour firstReady (by decide) (by decide)
      (fun _ _ => ⟨samplePage, rfl, rfl⟩)⟩

/-- Every failure of the exchange with the upstream is an error of `fetchUser`:
transport failure, status other than 200, unreadable body, undecodable body. -/
theorem fetchUser_errors (up : Upstream) (count page : Nat) :
    (∀ e, up.get (urlToFetch count page) = .failed e →
        fetchUser up count page = .error (.other e))
      ∧ (∀ code body, up.get (urlToFetch count page) = .response code body → code ≠ 200 →
          fetchUser up count page
            = .error (.other ("unexpected status code: " ++ toString code)))
      ∧ (∀ e, up.get (urlToFetch count page) = .response 200 (.error e) →
          fetchUser up count page = .error (.other e))
      ∧ (∀ bytes e, up.get (urlToFetch count page) = .response 200 (.ok bytes) →
          up.decode bytes = .error e → fetchUser up count page = .error (.other e)) := by
  refine ⟨?_, ?_, ?_, ?_⟩
  · intro e h
    simp [fetchUser, h]
  · intro code body h hne
    simp [fetchUser, h, hne]
  · intro e h
    simp [fetchUser, h]
  · intro bytes e h hd
    simp [fetchUser, h, hd]

/-- C7. Best-effort aggregation under one page failure: let `K` page fetches
be launched, of which the one for page `j + 1` returns an error (any error
value: `fetchUser` returns one on a transport failure, on a status other than
200, on an unreadable body and on an undecodable body) and every other returns
a page of exactly `perPage` records.  Then
under every scheduler `fetchAllUsers` returns normally, with exactly
`(K - 1) * perPage` users; exactly `K - 1` pages were sent on the channel; in
no reachable state is the failed task at its send statement; and every task
has ended. -/
theorem fetchAllUsers_one_failure (cfg : Config) (up : Upstream) (sched : Nat → Nat)
    (j : Nat) (err : GoError) (hcap : 0 < cfg.concurrency)
    (hj : j < cfg.totalRecords / cfg.perPage)
    (hfail : fetchUser up cfg.perPage (j + 1) = .error err)
    (hothers : ∀ i, i < cfg.totalRecords / cfg.perPage → i ≠ j →
      ∃ u, fetchUser up cfg.perPage (i + 1) = .ok u ∧ u.Results.length = cfg.perPage) :
    ∃ s, execute cfg up sched = .ok s ∧ s.main = .returned
      ∧ fetchAllUsers cfg up sched = .ok s.results
      ∧ s.results.len = (cfg.totalRecords / cfg.perPage - 1) * cfg.perPage
      ∧ s.sent.length = cfg.totalRecords / cfg.perPage - 1
      ∧ (∀ w ∈ s.workers, w.pc = .done)
      ∧ (∀ s', Reachable cfg up s' →
          ∀ w ∈ s'.workers, w.page = j + 1 → ∀ u, w.pc ≠ .sending u)
      ∧ (∀ e, up.get (urlToFetch cfg.perPage (j + 1)) = .failed e →
          fetchUser up cfg.perPage (j + 1) = .error (.other e))
      ∧ (∀ code body, up.get (urlToFetch cfg.perPage (j + 1)) = .response code body →
          code ≠ 200 → fetchUser up cfg.perPage (j + 1)
            = .error (.other ("unexpected status code: " ++ toString code)))
      ∧ (∀ e, up.get (urlToFetch cfg.perPage (j + 1)) = .response 200 (.error e) →
          fetchUser up cfg.perPage (j + 1) = .error (.other e))
      ∧ (∀ bytes e, up.get (urlToFetch cfg.perPage (j + 1)) = .response 200 (.ok bytes) →
          up.decode bytes = .error e → fetchUser up cfg.perPage (j + 1) = .error (.other e)) := by
  obtain ⟨s, hexec, hret, hreach, hf⟩ := execute_returns cfg up sched hcap
  have hsize : ∀ u ∈ successfulPages cfg up, u.Results.length = cfg.perPage := by
    intro u hu
    obtain ⟨i, hi, hfu⟩ := (mem_successfulPages cfg up u).1 hu
    by_cases hij : i = j
    · rw [hij, hfail] at hfu
      cases hfu
    · obtain ⟨u', hfu', hlen⟩ := hothers i hi hij
      rw [hfu] at hfu'
      injection hfu' with hfu'
      rw [hfu']
      exact hlen
  have hcount : (successfulPages cfg up).length = pageCount cfg - 1 := by
    rw [successfulPages_eq, length_filterMap_countP, ← count_range_ne (pageCount cfg) j hj]
    apply List.countP_congr
    intro i hi
    by_cases hij : i = j
    · simp [hij, fetched, hfail]
    · obtain ⟨u, hfu, -⟩ := hothers i (List.mem_range.1 hi) hij
      simp [hij, (fetched_eq_some up cfg.perPage (i + 1) u).2 hfu]
  refine ⟨s, hexec, hret, by simp [fetchAllUsers, hexec, Except.map], ?_, ?_, hf.allDone, ?_,
    fetchUser_errors up cfg.perPage (j + 1)⟩
  · rw [final_len cfg up s hf, sum_map_const _ cfg.perPage _ hsize, hcount]
    rfl
  · rw [(hf.sent).length_eq, hcount]
    rfl
  · intro s' hreach' w hw hpage u hpc
    have hi := inv_reachable cfg up s' hreach'
    have hsend := hi.sendingOk w hw u hpc
    have hc := worker_count cfg up s' hi w hw
    rw [Worker.task, hc, hpage, fetched_eq_some, hfail] at hsend
    cases hsend

theorem fetchAllUsers_one_failure_witness :
    0 < smallConfig.concurrency
      ∧ 0 < smallConfig.totalRecords / smallConfig.perPage
      ∧ fetchUser upOneBad smallConfig.perPage (0 + 1)
          = .error (.other "unexpected status code: 503")
      ∧ (∀ i, i < smallConfig.totalRecords / smallConfig.perPage → i ≠ 0 →
          ∃ u, fetchUser upOneBad smallConfig.perPage (i + 1) = .ok u
            ∧ u.Results.length = smallConfig.perPage)
      ∧ ∃ s, execute smallConfig upOneBad firstReady = .ok s ∧ s.main = .returned
        ∧ fetchAllUsers smallConfig upOneBad firstReady = .ok s.results
        ∧ s.results.len = (smallConfig.totalRecords / smallConfig.perPage - 1) * smallConfig.perPage
        ∧ s.sent.length = smallConfig.totalRecords / smallConfig.perPage - 1
        ∧ (∀ w ∈ s.workers, w.pc = .done)
        ∧ (∀ s', Reachable smallConfig upOneBad s' →
            ∀ w ∈ s'.workers, w.page = 0 + 1 → ∀ u, w.pc ≠ .sending u)
        ∧ (∀ e, upOneBad.get (urlToFetch smallConfig.perPage (0 + 1)) = .failed e →
            fetchUser upOneBad smallConfig.perPage (0 + 1) = .error (.other e))
        ∧ (∀ code body, upOneBad.get (urlToFetch smallConfig.perPage (0 + 1)) = .response code body →
            code ≠ 200 → fetchUser upOneBad smallConfig.perPage (0 + 1)
              = .error (.other ("unexpected status code: " ++ toString code)))
        ∧ (∀ e, upOneBad.get (urlToFetch smallConfig.perPage (0 + 1)) = .response 200 (.error e) →
            fetchUser upOneBad smallConfig.perPage (0 + 1) = .error (.other e))
        ∧ (∀ bytes e, upOneBad.get (urlToFetch smallConfig.perPage (0 + 1)) = .response 200 (.ok bytes) →
            upOneBad.decode bytes = .error e → fetchUser upOneBad smallConfig.perPage (0 + 1) = .error (.other e)) :=
  have hbad : fetchUser upOneBad smallConfig.perPage (0 + 1)
      = .error (.other "unexpected status code: 503") := by rfl
  have hgood : ∀ i, i < smallConfig.totalRecords / smallConfig.perPage → i ≠ 0 →
      ∃ u, fetchUser upOneBad smallConfig.perPage (i + 1) = .ok u
        ∧ u.Results.length = smallConfig.perPage := by
    intro i hi hne
    have h1 : i = 1 := by
      have : smallConfig.totalRecords / smallConfig.perPage = 2 := by decide
      omega
    subst h1
    exact ⟨samplePage, by rfl, by rfl⟩
  ⟨by decide, by decide, hbad, hgood,
    fetchAllUsers_one_failure smallConfig upOneBad firstReady 0
      (.other "unexpected status code: 503") (by decide) (by decide) hbad hgood⟩

/-- C9. Completion of the fan-out, for a channel of positive capacity, every
upstream (every subset of failing fetches) and every interleaving.
(1) Under every scheduler the run ends with the caller returning: no deadlock,
no panic, within `runFuel` actions.
(2) In every reachable state: no action of any goroutine panics (no send on a
closed channel, no second close, no negative counter); while the caller has
not returned some goroutine can move; every action strictly decreases
`measure`; the buffer holds at most `concurrency` pages; if the channel is
closed then every launched task has ended (all `wg.Done` calls are made, the
counter is zero) and all `pages` tasks were launched; and if the caller has
returned then the channel is closed and empty, every task has ended, and the
result is made of exactly the pages that were sent. -/
theorem fetchAllUsers_completes (cfg : Config) (up : Upstream) (hcap : 0 < cfg.concurrency) :
    (∀ sched : Nat → Nat, ∃ s users, execute cfg up sched = .ok s ∧ s.main = .returned
        ∧ fetchAllUsers cfg up sched = .ok users)
      ∧ ∀ s, Reachable cfg up s →
          (∀ g msg, step cfg up g s ≠ .panic msg)
          ∧ (s.main ≠ .returned → ∃ g s', step cfg up g s = .next s')
          ∧ (∀ g s', step cfg up g s = .next s' → measure cfg s' < measure cfg s)
          ∧ s.buf.length ≤ cfg.concurrency
          ∧ (s.closed = true →
              (∀ w ∈ s.workers, w.pc = .done) ∧ s.wg = 0
                ∧ s.workers.length = cfg.totalRecords / cfg.perPage)
          ∧ (s.main = .returned →
              s.closed = true ∧ s.buf = [] ∧ s.closer = .finished
                ∧ (∀ w ∈ s.workers, w.pc = .done)
                ∧ s.workers.length = cfg.totalRecords / cfg.perPage
                ∧ s.results.toList = s.sent.flatMap pageUsers) := by
  constructor
  · intro sched
    obtain ⟨s, hexec, hret, -, -⟩ := execute_returns cfg up sched hcap
    exact ⟨s, s.results, hexec, hret, by simp [fetchAllUsers, hexec, Except.map]⟩
  · intro s hreach
    have hi := inv_reachable cfg up s hreach
    refine ⟨fun g msg => inv_no_panic cfg up g s hi msg, ?_, ?_, buf_le_capacity cfg up s hreach,
      ?_, ?_⟩
    · intro hr
      obtain ⟨g, -, hnb⟩ := inv_progress cfg up s hcap hi hr
      cases hs : step cfg up g s with
      | blocked => simp [hs, StepResult.isBlocked] at hnb
      | panic msg => exact absurd hs (inv_no_panic cfg up g s hi msg)
      | next s' => exact ⟨g, s', hs⟩
    · intro g s' hs
      exact (inv_step cfg up g s s' hi hs).2
    · intro hclosed
      have hfin := hi.closedIff.1 hclosed
      have hdone : ∀ w ∈ s.workers, w.pc = .done := hi.allDone (by rw [hfin]; rfl)
      have hnb : s.main.beforeCloser = false := by
        cases hb : s.main.beforeCloser with
        | false => rfl
        | true =>
          have := hi.closerAbsent.2 hb
          rw [hfin] at this
          cases this
      have h0 : s.workers.countP (fun w => !w.pc.isDone) = 0 := by
        rw [List.countP_eq_zero]
        intro w hw
        simp [hdone w hw, WorkerPc.isDone]
      have h1 := hi.wgCount
      have h2 := hi.launched
      have hp : s.main.pending = 0 ∧ s.workers.length = pageCount cfg := by
        cases hm : s.main with
        | launchAdd i => simp [hm, MainPc.beforeCloser] at hnb
        | launchGo i => simp [hm, MainPc.beforeCloser] at hnb
        | spawnCloser => simp [hm, MainPc.beforeCloser] at hnb
        | receiving => exact ⟨rfl, by simpa [hm, MainPc.launchedOk] using h2⟩
        | returned => exact ⟨rfl, by simpa [hm, MainPc.launchedOk] using h2⟩
      refine ⟨hdone, ?_, hp.2⟩
      rw [h1, h0, hp.1]
    · intro hr
      have hf := final_of_returned cfg up s hreach hr
      refine ⟨hf.closed, hf.drained, hf.closerFinished, hf.allDone, ?_, hf.results⟩
      have := congrArg List.length hf.tasks
      simpa [plannedTasks, pageCount] using this

theorem fetchAllUsers_completes_witness :
    0 < programConfig.concurrency
      ∧ ((∀ sched : Nat → Nat, ∃ s users, execute programConfig upOneBad sched = .ok s
            ∧ s.main = .returned ∧ fetchAllUsers programConfig upOneBad sched = .ok users)
        ∧ ∀ s, Reachable programConfig upOneBad s →
            (∀ g msg, step programConfig upOneBad g s ≠ .panic msg)
            ∧ (s.main ≠ .returned → ∃ g s', step programConfig upOneBad g s = .next s')
            ∧ (∀ g s', step programConfig upOneBad g s = .next s' →
                measure programConfig s' < measure programConfig s)
            ∧ s.buf.length ≤ programConfig.concurrency
            ∧ (s.closed = true →
                (∀ w ∈ s.workers, w.pc = .done) ∧ s.wg = 0
                  ∧ s.workers.length = programConfig.totalRecords / programConfig.perPage)
            ∧ (s.main = .returned →
                s.closed = true ∧ s.buf = [] ∧ s.closer = .finished
                  ∧ (∀ w ∈ s.workers, w.pc = .done)
                  ∧ s.workers.length = programConfig.totalRecords / programConfig.perPage
                  ∧ s.results.toList = s.sent.flatMap pageUsers)) :=
  ⟨by decide, fetchAllUsers_completes programConfig upOneBad (by decide)⟩

/-- C10. Flatten and normalise: under every scheduler `fetchAllUsers` returns,
and if `P1, ..., Pm` is the order in which pages were sent on the channel
(the log `sent`, a permutation of the pages whose fetch succeeded) then the
result is exactly `normalize(P1.Results) ++ ... ++ normalize(Pm.Results)`,
where `normalize` copies Gender, Name.First, Name.Last, Email, Location.City,
Location.Country and Login.Uuid; its length is the sum of the page lengths;
and the results under any two schedulers are permutations of each other. -/
theorem fetchAllUsers_flatten (cfg : Config) (up : Upstream) (sched : Nat → Nat)
    (hcap : 0 < cfg.concurrency) :
    ∃ s, execute cfg up sched = .ok s ∧ fetchAllUsers cfg up sched = .ok s.results
      ∧ List.Perm s.sent (successfulPages cfg up)
      ∧ s.results.toList = s.sent.flatMap (fun p => p.Results.map normalize)
      ∧ s.results.len = (s.sent.map (fun p => p.Results.length)).sum
      ∧ (∀ r : RawUser, normalize r
          = ⟨r.Gender, r.Name.First, r.Name.Last, r.Email, r.Location.City,
              r.Location.Country, r.Login.Uuid⟩)
      ∧ (∀ order1 order2 : List UsersResults, List.Perm order1 order2 →
          List.Perm (order1.flatMap (fun p => p.Results.map normalize))
            (order2.flatMap (fun p => p.Results.map normalize)))
      ∧ ∀ sched2 : Nat → Nat, ∃ users2, fetchAllUsers cfg up sched2 = .ok users2
          ∧ List.Perm s.results.toList users2.toList := by
  obtain ⟨s, hexec, -, -, hf⟩ := execute_returns cfg up sched hcap
  refine ⟨s, hexec, by simp [fetchAllUsers, hexec, Except.map], hf.sent, hf.results, ?_,
    fun _ => rfl, fun _ _ hperm => List.Perm.flatMap_right _ hperm, ?_⟩
  · rw [GoSlice.len, hf.results, length_flatMap_pageUsers]
  · intro sched2
    obtain ⟨s2, hexec2, -, -, hf2⟩ := execute_returns cfg up sched2 hcap
    refine ⟨s2.results, by simp [fetchAllUsers, hexec2, Except.map], ?_⟩
    rw [hf.results, hf2.results]
    exact List.Perm.flatMap_right pageUsers ((hf.sent).trans (hf2.sent).symm)

theorem fetchAllUsers_flatten_witness :
    0 < smallConfig.concurrency
      ∧ ∃ s, execute smallConfig upFour firstReady = .ok s
        ∧ fetchAllUsers smallConfig upFour firstReady = .ok s.results
        ∧ List.Perm s.sent (successfulPages smallConfig upFour)
        ∧ s.results.toList = s.sent.flatMap (fun p => p.Results.map normalize)
        ∧ s.results.len = (s.sent.map (fun p => p.Results.length)).sum
        ∧ (∀ r : RawUser, normalize r
            = ⟨r.Gender, r.Name.First, r.Name.Last, r.Email, r.Location.City,
                r.Location.Country, r.Login.Uuid⟩)
        ∧ (∀ order1 order2 : List UsersResults, List.Perm order1 order2 →
            List.Perm (order1.flatMap (fun p => p.Results.map normalize))
              (order2.flatMap (fun p => p.Results.map normalize)))
        ∧ ∀ sched2 : Nat → Nat, ∃ users2, fetchAllUsers smallConfig upFour sched2 = .ok users2
            ∧ List.Perm s.results.toList users2.toList :=
  ⟨by decide, fetchAllUsers_flatten smallConfig upFour firstReady (by decide)⟩

/-- C8, at the failing input: with the constants of the program, an empty
cache and an upstream on which every page fetch fails (or one that answers
every page with no record), `fetchAllUsers` returns the nil slice it never
appended to, `encodeUsers` returns `null`, and the cache-miss request answers
200 with body `null`, which is not the text `[]` of the JSON array of zero
users. For a non-nil slice `encodeUsers` returns the JSON array. -/
theorem getUsers_empty_result_null :
    fetchAllUsers programConfig upDown firstReady = .ok .nil
      ∧ fetchAllUsers programConfig upEmpty firstReady = .ok .nil
      ∧ encodeUsers plainQuote .nil = "null"
      ∧ "null" ≠ jsonArray plainQuote []
      ∧ jsonArray plainQuote [] = "[]"
      ∧ (∃ h, getUsers programConfig ⟨upDown, firstReady, healthy, plainQuote⟩ emptyData = .ok h
          ∧ h.response = ⟨200, .text "null"⟩
          ∧ h.data REDIS_USERS_KEY = some ⟨"null", 0⟩)
      ∧ (∃ h, getUsers programConfig ⟨upEmpty, firstReady, healthy, plainQuote⟩ emptyData = .ok h
          ∧ h.response = ⟨200, .text "null"⟩
          ∧ h.data REDIS_USERS_KEY = some ⟨"null", 0⟩)
      ∧ ∀ (quote : String → String) (users : List User),
          encodeUsers quote (.ofList users) = jsonArray quote users :=
  ⟨rfl, rfl, rfl, by decide, by decide, ⟨_, rfl, rfl, rfl⟩, ⟨_, rfl, rfl, rfl⟩,
    fun _ _ => rfl⟩

end Testgo
